import Mathlib

/-!
# Verification of the I-79 incident pipeline (`scripts/fetch_i79_incidents.py`)

A shallow embedding of the pure core of the pipeline: text classification
(`likely_relevant`), fatality estimation (`extract_fatalities`), location
resolution (`infer_location`), the WV511 delay-listing block parser
(`parse_wv511_i79_incidents`), identity (`incident_id`, via a full SHA-1
model), and the merge/override engine (`apply_manual_overrides`,
`build_dataset`).

Conventions:
* Python `str` values are Lean `String`s; scanning routines work on
  `List Char`.  Case mapping, whitespace and word-character classes follow
  Python's behaviour on ASCII text (the corpus the program handles).
* Python `int` is `Int` (counts extracted from text are `Nat` internally),
  Python `float` coordinates are `ℚ` (the source only ever stores decimal
  literals and `None`), `None`-able fields are `Option`s.
* The `re` patterns used by the source are compiled by hand into dedicated
  scanners whose backtracking behaviour is shown (in comments at each
  definition) to coincide with the Python regexes on the fixed patterns
  involved.
* Network and wire-format collaborators (RSS fetching, the WordPress and
  sitemap adapters, RFC-2822 date parsing from `email.utils`) are modelled
  as inputs/parameters at exactly the boundaries where the source calls
  them; every routine below those boundaries is translated from the source.
-/

set_option maxRecDepth 100000

/-! ## Python string primitives (ASCII semantics) -/

/-- Python `str.lower()` restricted to ASCII (`A`-`Z` mapped down). -/
def pyLowerChar (c : Char) : Char :=
  if 'A' ≤ c ∧ c ≤ 'Z' then Char.ofNat (c.toNat + 32) else c

/-- Lower-cased character list of a string (`text.lower()`). -/
def lowerL (s : String) : List Char := s.toList.map pyLowerChar

/-- Lower-cased string (`text.lower()`). -/
def lowerS (s : String) : String := String.mk (lowerL s)

/-- The whitespace characters of Python's `str.strip()` / `\s` on ASCII. -/
def isPySpace (c : Char) : Bool :=
  c = ' ' ∨ c = '\t' ∨ c = '\n' ∨ c = '\r' ∨ c = '\x0b' ∨ c = '\x0c'

/-- Python `\w` (word character) on ASCII: letters, digits, underscore. -/
def isWordChar (c : Char) : Bool :=
  ('a' ≤ c ∧ c ≤ 'z') ∨ ('A' ≤ c ∧ c ≤ 'Z') ∨ ('0' ≤ c ∧ c ≤ '9') ∨ c = '_'

/-- ASCII decimal digit (`\d` on ASCII). -/
def isDigitChar (c : Char) : Bool := '0' ≤ c ∧ c ≤ '9'

/-- Python `str.strip()` on a character list. -/
def stripL (cs : List Char) : List Char :=
  ((cs.dropWhile isPySpace).reverse.dropWhile isPySpace).reverse

/-- Python `str.strip()`. -/
def pyStrip (s : String) : String := String.mk (stripL s.toList)

/-- `pat` is a leading segment of `cs` (used for `str.startswith` and as the
regex literal matcher). -/
def startsL : List Char → List Char → Bool
  | [], _ => true
  | _ :: _, [] => false
  | p :: ps, c :: cs => p = c && startsL ps cs

/-- Python `pat in text` (unanchored substring containment). -/
def hasSub (pat : List Char) : List Char → Bool
  | [] => startsL pat []
  | c :: cs => startsL pat (c :: cs) || hasSub pat cs

/-- Substring containment with `String` pattern. -/
def hasSubS (pat : String) (cs : List Char) : Bool := hasSub pat.toList cs

/-- `str.startswith` on strings. -/
def startsS (pre s : String) : Bool := startsL pre.toList s.toList

/-- Remove the first occurrence of `pat` from `cs`
(Python `s.replace(pat, "", 1)`); leaves `cs` unchanged if absent. -/
def removeFirstL (pat : List Char) : List Char → List Char
  | [] => []
  | c :: cs => if startsL pat (c :: cs) then (c :: cs).drop pat.length
               else c :: removeFirstL pat cs

/-- Everything after the first `:` (Python `s.split(":", 1)[1]`); total
variant returning `""` when no colon is present (the source only calls it
on lines that contain one). -/
def afterColonL : List Char → List Char
  | [] => []
  | c :: cs => if c = ':' then cs else afterColonL cs

/-- `line.split(":", 1)[1].strip()` as used by the block parser. -/
def afterColonStrip (s : String) : String := String.mk (stripL (afterColonL s.toList))

/-- Python `str.title()` on ASCII: a letter is upper-cased when not preceded
by a letter, otherwise lower-cased. -/
def pyTitleAux : Bool → List Char → List Char
  | _, [] => []
  | prevAlpha, c :: cs =>
    let isAl := ('a' ≤ c ∧ c ≤ 'z') ∨ ('A' ≤ c ∧ c ≤ 'Z')
    let c' := if isAl then
        (if prevAlpha then pyLowerChar c
         else if 'a' ≤ c ∧ c ≤ 'z' then Char.ofNat (c.toNat - 32) else c)
      else c
    c' :: pyTitleAux isAl cs

/-- Python `str.title()`. -/
def pyTitle (s : String) : String := String.mk (pyTitleAux false s.toList)

/-- Numeric value of a digit run (`int()` on a decimal-digit string). -/
def digitsVal (ds : List Char) : Nat :=
  ds.foldl (fun a c => a * 10 + (c.toNat - '0'.toNat)) 0

/-! ## SHA-1 (model of `hashlib.sha1`)

Machine words are `Nat`s kept below `2 ^ 32`; every addition is reduced
`% 2 ^ 32`. -/

def m32 : Nat := 4294967296

/-- Rotate a 32-bit word left by `n` (0 < n < 32). -/
def rotl (n x : Nat) : Nat := ((x <<< n) % m32) ||| (x >>> (32 - n))

/-- UTF-8 bytes of one character (model of Python `str.encode("utf-8")`). -/
def utf8Bytes (c : Char) : List Nat :=
  let n := c.toNat
  if n < 128 then [n]
  else if n < 2048 then [192 ||| (n >>> 6), 128 ||| (n &&& 63)]
  else if n < 65536 then
    [224 ||| (n >>> 12), 128 ||| ((n >>> 6) &&& 63), 128 ||| (n &&& 63)]
  else
    [240 ||| (n >>> 18), 128 ||| ((n >>> 12) &&& 63),
     128 ||| ((n >>> 6) &&& 63), 128 ||| (n &&& 63)]

/-- UTF-8 byte sequence of a string. -/
def strBytes (s : String) : List Nat := s.toList.flatMap utf8Bytes

/-- Big-endian byte rendering of `n` in `count` bytes. -/
def beBytes (count n : Nat) : List Nat :=
  match count with
  | 0 => []
  | k + 1 => beBytes k (n >>> 8) ++ [n &&& 255]

/-- SHA-1 padding: `0x80`, zeros to 56 mod 64, 8-byte big-endian bit length. -/
def sha1Pad (msg : List Nat) : List Nat :=
  let len := msg.length
  msg ++ [128] ++ List.replicate ((119 - len % 64) % 64) 0 ++ beBytes 8 (len * 8)

/-- Split a byte list into 64-byte chunks (fuel-indexed so the kernel can
evaluate it; `fuel = xs.length` always suffices since each step consumes at
least one byte). -/
def chunk64Aux : Nat → List Nat → List (List Nat)
  | 0, _ => []
  | _ + 1, [] => []
  | fuel + 1, x :: xs => ((x :: xs).take 64) :: chunk64Aux fuel ((x :: xs).drop 64)

/-- Split a byte list into 64-byte chunks. -/
def chunk64 (xs : List Nat) : List (List Nat) := chunk64Aux xs.length xs

/-- The sixteen 32-bit big-endian words of one chunk. -/
def wordsOfChunk : List Nat → List Nat
  | b0 :: b1 :: b2 :: b3 :: rest =>
    (((b0 <<< 24) ||| (b1 <<< 16)) ||| ((b2 <<< 8) ||| b3)) :: wordsOfChunk rest
  | _ => []

/-- Message-schedule extension: append words until 80 are present. -/
def extendW (ws : List Nat) : Nat → List Nat
  | 0 => ws
  | k + 1 =>
    let i := ws.length
    let w := rotl 1 ((((ws.getD (i - 3) 0).xor (ws.getD (i - 8) 0)).xor
      (ws.getD (i - 14) 0)).xor (ws.getD (i - 16) 0))
    extendW (ws ++ [w]) k

/-- One SHA-1 round; `iw` is the (round index, schedule word) pair. -/
def sha1Round (st : Nat × Nat × Nat × Nat × Nat) (iw : Nat × Nat) :
    Nat × Nat × Nat × Nat × Nat :=
  let (a, b, c, d, e) := st
  let (i, w) := iw
  let fk : Nat × Nat :=
    if i < 20 then ((b &&& c) ||| ((b.xor 4294967295) &&& d), 1518500249)
    else if i < 40 then ((b.xor c).xor d, 1859775393)
    else if i < 60 then (((b &&& c) ||| (b &&& d)) ||| (c &&& d), 2400959708)
    else ((b.xor c).xor d, 3395469782)
  let temp := (rotl 5 a + fk.1 + e + fk.2 + w) % m32
  (temp, a, rotl 30 b, c, d)

/-- Process one chunk, updating the five hash words. -/
def sha1Chunk (h : Nat × Nat × Nat × Nat × Nat) (chunk : List Nat) :
    Nat × Nat × Nat × Nat × Nat :=
  let ws := extendW (wordsOfChunk chunk) 64
  let (a, b, c, d, e) := ws.enum.foldl sha1Round h
  ((h.1 + a) % m32, (h.2.1 + b) % m32, (h.2.2.1 + c) % m32,
   (h.2.2.2.1 + d) % m32, (h.2.2.2.2 + e) % m32)

/-- Hex digit character. -/
def hexChar (n : Nat) : Char :=
  if n < 10 then Char.ofNat ('0'.toNat + n) else Char.ofNat ('a'.toNat + n - 10)

/-- Eight lowercase hex digits of a 32-bit word. -/
def hexWord (w : Nat) : List Char :=
  [hexChar ((w >>> 28) &&& 15), hexChar ((w >>> 24) &&& 15),
   hexChar ((w >>> 20) &&& 15), hexChar ((w >>> 16) &&& 15),
   hexChar ((w >>> 12) &&& 15), hexChar ((w >>> 8) &&& 15),
   hexChar ((w >>> 4) &&& 15), hexChar (w &&& 15)]

/-- `hashlib.sha1(bytes).hexdigest()`. -/
def sha1HexBytes (msg : List Nat) : String :=
  let h := (chunk64 (sha1Pad msg)).foldl sha1Chunk
    (1732584193, 4023233417, 2562383102, 271733878, 3285377520)
  String.mk (hexWord h.1 ++ hexWord h.2.1 ++ hexWord h.2.2.1 ++
    hexWord h.2.2.2.1 ++ hexWord h.2.2.2.2)

/-- `hashlib.sha1(s.encode("utf-8")).hexdigest()`. -/
def sha1HexUtf8 (s : String) : String := sha1HexBytes (strBytes s)

/-- The embedded SHA-1 agrees with the reference digest of `"abc"`
(FIPS 180-1 test vector), validating the hash model. -/
theorem sha1HexUtf8_abc :
    sha1HexUtf8 "abc" = "a9993e364706816aba3e25717850c26c9cd0d89d" := by decide

/-! ## Keyword tables (module-level constants of the source) -/

def INCIDENT_TERMS : List String :=
  ["accident", "crash", "wreck", "collision", "vehicle fire", "rolled over",
   "rollover", "tractor trailer", "traffic backup"]

def CONSTRUCTION_TERMS : List String :=
  ["construction", "work zone", "bridge work", "bridge deck repairs", "paving",
   "lane closure", "detour", "road work", "maintenance"]

def NORTH_CENTRAL_COUNTIES : List String :=
  ["monongalia county", "marion county", "harrison county"]

/-- A coordinate literal with four decimal places (written `n / 10000`,
via `mkRat` so that the kernel can evaluate it; the decimal literals of the
source all have at most four places). -/
def q4 (n : Int) : ℚ := mkRat n 10000

/-- `LOCATION_HINTS` in its declaration (= dict insertion/iteration) order. -/
def LOCATION_HINTS : List (String × ℚ × ℚ) :=
  [("morgantown", q4 396295, q4 (-799559)),
   ("star city", q4 396579, q4 (-799862)),
   ("fairmont", q4 394851, q4 (-801426)),
   ("white hall", q4 394443, q4 (-801723)),
   ("bridgeport", q4 392865, q4 (-802562)),
   ("clarksburg", q4 392806, q4 (-803445)),
   ("weston", q4 390384, q4 (-804673)),
   ("stonewood", q4 392462, q4 (-803009)),
   ("lost creek", q4 391615, q4 (-803731)),
   ("monongalia county", q4 396525, q4 (-800041)),
   ("marion county", q4 394568, q4 (-801542)),
   ("harrison county", q4 393032, q4 (-803781))]

def SPELLED_NUMBERS : List (String × Nat) :=
  [("one", 1), ("two", 2), ("three", 3), ("four", 4), ("five", 5), ("six", 6)]

def WV511_DELAY_URL : String :=
  "https://www.wv511.org/TravelConditions/TravelDelay.aspx"

/-! ## Relevance classifier -/

/-- `likely_relevant`: corridor mention and at least one incident term,
both as substring tests on the lower-cased text. -/
def likely_relevant (text : String) : Bool :=
  let lowered := lowerL text
  let mentions_i79 := hasSubS "i-79" lowered || hasSubS "interstate 79" lowered
    || hasSubS "i 79" lowered
  let mentions_incident := INCIDENT_TERMS.any (fun t => hasSubS t lowered)
  mentions_i79 && mentions_incident

/-- `text_to_bool`. -/
def text_to_bool (value : String) : Bool :=
  let lowered := lowerS (pyStrip value)
  lowered = "1" ∨ lowered = "true" ∨ lowered = "yes" ∨ lowered = "y"

/-! ## Fatality estimator (`extract_fatalities`)

The four numeric regexes and the two spelled-number regexes are compiled by
hand.  Each `…At` matcher decides a match anchored at the current position;
`searchSimple`/`searchBnd` provide `re.search`'s leftmost-position scan
(`searchBnd` additionally threads the previous character's word-ness for
`\b`).  Greedy `\d+`/`\s+` munching needs no backtracking here: each run is
followed by a character class disjoint from it, so only the maximal run can
extend to a full match. -/

/-- Maximal digit run and the remainder. -/
def takeDigits (cs : List Char) : List Char × List Char :=
  (cs.takeWhile isDigitChar, cs.dropWhile isDigitChar)

/-- `\s+`: at least one whitespace character, consumed maximally. -/
def dropSpaces1 : List Char → Option (List Char)
  | [] => none
  | c :: cs => if isPySpace c then some (cs.dropWhile isPySpace) else none

/-- Literal fragment matcher. -/
def litL (pat : String) (cs : List Char) : Option (List Char) :=
  if startsL pat.toList cs then some (cs.drop pat.toList.length) else none

/-- `(?:people|person|victims?)`: the three alternatives are mutually
exclusive literals, and the optional `s` of `victims?` is followed by `\s+`,
so greedy consumption is exact. -/
def nounAlt (cs : List Char) : Option (List Char) :=
  match litL "people" cs with
  | some r => some r
  | none =>
    match litL "person" cs with
    | some r => some r
    | none =>
      match litL "victim" cs with
      | some r => match r with
        | 's' :: r' => some r'
        | _ => some r
      | none => none

/-- `(?:were\s+)?killed` with the regex's backtracking: the optional group
is tried greedily, falling back to matching `killed` directly. -/
def wereKilled (cs : List Char) : Option (List Char) :=
  match (litL "were" cs).bind dropSpaces1 with
  | some r =>
    match litL "killed" r with
    | some r' => some r'
    | none => litL "killed" cs
  | none => litL "killed" cs

/-- `(\d+)\s+(?:people|person|victims?)\s+(?:were\s+)?killed` at a position. -/
def pat1At (cs : List Char) : Option Nat :=
  match takeDigits cs with
  | ([], _) => none
  | (ds, r) => (((dropSpaces1 r).bind nounAlt).bind dropSpaces1).bind
      (fun r' => (wereKilled r').map (fun _ => digitsVal ds))

/-- `(\d+)\s+dead` at a position. -/
def pat2At (cs : List Char) : Option Nat :=
  match takeDigits cs with
  | ([], _) => none
  | (ds, r) => ((dropSpaces1 r).bind (litL "dead")).map (fun _ => digitsVal ds)

/-- `killed\s+(\d+)` at a position. -/
def pat3At (cs : List Char) : Option Nat :=
  ((litL "killed" cs).bind dropSpaces1).bind (fun r =>
    match takeDigits r with
    | ([], _) => none
    | (ds, _) => some (digitsVal ds))

/-- `(\d+)\s+fatalit` at a position. -/
def pat4At (cs : List Char) : Option Nat :=
  match takeDigits cs with
  | ([], _) => none
  | (ds, r) => ((dropSpaces1 r).bind (litL "fatalit")).map (fun _ => digitsVal ds)

/-- `re.search` for boundary-free patterns: first position (left to right)
where the anchored matcher succeeds. -/
def searchSimple (p : List Char → Option Nat) : List Char → Option Nat
  | [] => p []
  | c :: cs =>
    match p (c :: cs) with
    | some v => some v
    | none => searchSimple p cs

/-- `re.search` for matchers that consult a leading `\b`: threads whether
the previous character was a word character. -/
def searchBnd (p : Bool → List Char → Option Nat) : Bool → List Char → Option Nat
  | prevW, [] => p prevW []
  | prevW, c :: cs =>
    match p prevW (c :: cs) with
    | some v => some v
    | none => searchBnd p (isWordChar c) cs

/-- Position ends a `\b`: end of text or a non-word character follows. -/
def bndEnd : List Char → Bool
  | [] => true
  | c :: _ => !isWordChar c

/-- First spelled-number alternative (in the regex's alternation order)
whose literal matches and whose continuation `k` succeeds.  The six word
literals are mutually exclusive, so trying the rest of the alternation
after a continuation failure is equivalent to regex backtracking. -/
def spelledAlt (alts : List (String × Nat)) (k : List Char → Option Unit)
    (cs : List Char) : Option Nat :=
  match alts with
  | [] => none
  | (w, v) :: rest =>
    if startsL w.toList cs then
      match k (cs.drop w.toList.length) with
      | some _ => some v
      | none => spelledAlt rest k cs
    else spelledAlt rest k cs

/-- `\b(one|two|three|four|five|six)\s+dead\b` at a position. -/
def spelled1At (prevW : Bool) (cs : List Char) : Option Nat :=
  if prevW then none
  else spelledAlt SPELLED_NUMBERS
    (fun r => (((dropSpaces1 r).bind (litL "dead")).bind
      (fun r' => if bndEnd r' then some () else none))) cs

/-- `\b(one|…|six)\s+(?:person|people)\s+(?:was|were)\s+killed\b` at a
position. -/
def spelled2At (prevW : Bool) (cs : List Char) : Option Nat :=
  if prevW then none
  else spelledAlt SPELLED_NUMBERS
    (fun r =>
      (((dropSpaces1 r).bind (fun r1 =>
          match litL "person" r1 with
          | some r2 => some r2
          | none => litL "people" r1)).bind (fun r2 =>
        ((dropSpaces1 r2).bind (fun r3 =>
          match litL "was" r3 with
          | some r4 => some r4
          | none => litL "were" r3)).bind (fun r4 =>
          ((dropSpaces1 r4).bind (litL "killed")).bind (fun r5 =>
            if bndEnd r5 then some () else none))))) cs

def fatalClues : List String :=
  ["fatal", "killed", "died", "dead", "medical examiner called",
   "pronounced dead", "dead at the scene", "dead at scene"]

/-- Whether the lower-cased text contains any fatal-clue phrase. -/
def hasFatalClue (lowered : List Char) : Bool :=
  fatalClues.any (fun clue => hasSubS clue lowered)

/-- One iteration of the source's pattern loop: `re.search` the pattern;
a found value is kept only when `0 < value <= 10`, otherwise this pattern
contributes nothing (the match is *not* retried further right). -/
def tryPat (p : List Char → Option Nat) (lowered : List Char) : Option Nat :=
  match searchSimple p lowered with
  | some v => if 0 < v ∧ v ≤ 10 then some v else none
  | none => none

/-- The four-pattern priority loop of `extract_fatalities`. -/
def acceptedNumeric (lowered : List Char) : Option Nat :=
  match tryPat pat1At lowered with
  | some v => some v
  | none =>
    match tryPat pat2At lowered with
    | some v => some v
    | none =>
      match tryPat pat3At lowered with
      | some v => some v
      | none => tryPat pat4At lowered

/-- `extract_fatalities`. -/
def extract_fatalities (text : String) : Int :=
  let lowered := lowerL text
  if ¬ hasFatalClue lowered then 0
  else
    match acceptedNumeric lowered with
    | some v => (v : Int)
    | none =>
      match searchBnd spelled1At false lowered with
      | some v => (v : Int)
      | none =>
        match searchBnd spelled2At false lowered with
        | some v => (v : Int)
        | none => 1

/-! ## Location resolver (`infer_location`) -/

/-- `re.search(rf"\b{place}\b", lowered)`: index of the leftmost
word-boundary-delimited occurrence of `place`.  (The leading and trailing
characters of every place searched this way are word characters, so the
boundaries reduce to the neighbour tests used here.) -/
def wbAux (place : List Char) : List Char → Nat → Bool → Option Nat
  | [], _, _ => none
  | c :: cs, i, prevW =>
    if !prevW && startsL place (c :: cs) && bndEnd ((c :: cs).drop place.length)
    then some i
    else wbAux place cs (i + 1) (isWordChar c)

def searchWB (place : String) (cs : List Char) : Option Nat :=
  wbAux place.toList cs 0 false

/-- The `(match.start(), place)` pairs collected by `infer_location`'s
county loop, in the loop's fixed order. -/
def countyMatches (lowered : List Char) : List (Nat × String) :=
  NORTH_CENTRAL_COUNTIES.filterMap
    (fun place => (searchWB place lowered).map (fun s => (s, place)))

/-- `sorted(county_matches, key=lambda x: x[0])[0]`: the head of a stable
sort by start index is the first element attaining the minimal start. -/
def pickMin (m : Nat × String) (rest : List (Nat × String)) : Nat × String :=
  rest.foldl (fun a b => if b.1 < a.1 then b else a) m

/-- Coordinates of a place key of `LOCATION_HINTS` (`LOCATION_HINTS[best]`;
the `(0, 0)` default is unreachable: it is only consulted for the three
county keys, which are in the table). -/
def hintCoords (name : String) : ℚ × ℚ :=
  ((LOCATION_HINTS.find? (fun e => e.1 == name)).map (fun e => e.2)).getD (0, 0)

/-- First table entry (in declaration order) whose key occurs as a plain
substring of the lowered text — `infer_location`'s fallback loop. -/
def tableFirst (lowered : List Char) : Option (String × ℚ × ℚ) :=
  LOCATION_HINTS.find? (fun e => hasSubS e.1 lowered)

/-- `infer_location`. -/
def infer_location (text : String) : String × Option ℚ × Option ℚ :=
  let lowered := lowerL text
  match countyMatches lowered with
  | m :: rest =>
    let best := pickMin m rest
    let coords := hintCoords best.2
    (pyTitle best.2, some coords.1, some coords.2)
  | [] =>
    match tableFirst lowered with
    | some (place, la, lo) => (pyTitle place, some la, some lo)
    | none => ("Unspecified stretch", none, none)

/-! Sanity checks of the classifier/estimator/resolver embeddings against
the repository's unit-test expectations. -/

theorem likely_relevant_examples :
    likely_relevant "I-79 crash near Morgantown" = true ∧
    likely_relevant "I-79 construction update" = false ∧
    likely_relevant "car crash on Route 50 near Clarksburg" = false := by decide

theorem extract_fatalities_examples :
    extract_fatalities "2 dead in I-79 crash" = 2 ∧
    extract_fatalities "Crash killed 3 on I-79" = 3 ∧
    extract_fatalities "1 fatality reported on I-79" = 1 ∧
    extract_fatalities "2 people were killed in the crash" = 2 ∧
    extract_fatalities "three dead following overnight wreck" = 3 ∧
    extract_fatalities "two people were killed in the accident" = 2 ∧
    extract_fatalities "fatal crash on I-79" = 1 ∧
    extract_fatalities "Driver pronounced dead at the scene" = 1 ∧
    extract_fatalities "Traffic backup on I-79 near Fairmont" = 0 := by decide

theorem infer_location_examples :
    infer_location "Crash in Marion County on I-79"
      = ("Marion County", some (q4 394568), some (q4 (-801542))) ∧
    infer_location "Crash near Morgantown on I-79"
      = ("Morgantown", some (q4 396295), some (q4 (-799559))) ∧
    infer_location "Marion County crash near Fairmont"
      = ("Marion County", some (q4 394568), some (q4 (-801542))) ∧
    infer_location "Crash on some unnamed stretch"
      = ("Unspecified stretch", none, none) := by decide

/-! ## The `Incident` record -/

structure Incident where
  id : String
  title : String
  url : String
  source : String
  published_at : String
  summary : String
  location_text : String
  lat : Option ℚ
  lon : Option ℚ
  construction_related : Bool
  suspected_fatalities : Int
  source_type : String := "news"
  verification_status : String := "unverified"
  verified_fatalities : Option Int := none
  notes : String := ""
deriving DecidableEq, Repr

/-- `incident_id`: first 12 hex characters of `sha1("<url>|<title>")`. -/
def incident_id (url title : String) : String :=
  String.mk ((sha1HexUtf8 (url ++ "|" ++ title)).toList.take 12)

/-- `effective_fatalities`: the verified count when present, else the
heuristic estimate. -/
def effective_fatalities (inc : Incident) : Int :=
  inc.verified_fatalities.getD inc.suspected_fatalities

/-! ## `parse_wv511_date` (model of `strptime("%m/%d/%Y %I:%M:%S %p")`)

CPython's `strptime` compiles the format to a regex: `%m`/`%I` become
`1[0-2]|0[1-9]|[1-9]`, `%d` becomes `3[01]|[12]\d|0[1-9]|[1-9]`, `%Y`
becomes four digits, `%M` becomes `[0-5]\d|\d`, `%S` becomes
`6[0-1]|[0-5]\d|\d`, `%p` matches AM/PM case-insensitively, whitespace in
the format matches `\s+`, and the whole string must be consumed.  The
alternations backtrack, which `tryCands` reproduces by offering the
candidate parses in alternation order; `datetime`'s constructor then
rejects out-of-range components (`ValueError` is caught, yielding `""`). -/

/-- Try candidate (value, rest) parses in order until the continuation
succeeds — regex alternation with backtracking. -/
def tryCands (cands : List (Nat × List Char)) (k : Nat → List Char → Option α) :
    Option α :=
  match cands with
  | [] => none
  | (v, r) :: rest =>
    match k v r with
    | some x => some x
    | none => tryCands rest k

def digitVal (c : Char) : Nat := c.toNat - '0'.toNat

/-- Candidates for `1[0-2]|0[1-9]|[1-9]` (`%m` and `%I`). -/
def candsMonth : List Char → List (Nat × List Char)
  | c1 :: c2 :: r =>
    (if c1 = '1' ∧ '0' ≤ c2 ∧ c2 ≤ '2' then [(10 + digitVal c2, r)] else []) ++
    (if c1 = '0' ∧ '1' ≤ c2 ∧ c2 ≤ '9' then [(digitVal c2, r)] else []) ++
    (if '1' ≤ c1 ∧ c1 ≤ '9' then [(digitVal c1, c2 :: r)] else [])
  | [c1] => if '1' ≤ c1 ∧ c1 ≤ '9' then [(digitVal c1, [])] else []
  | [] => []

/-- Candidates for `3[01]|[12]\d|0[1-9]|[1-9]` (`%d`). -/
def candsDay : List Char → List (Nat × List Char)
  | c1 :: c2 :: r =>
    (if c1 = '3' ∧ ('0' ≤ c2 ∧ c2 ≤ '1') then [(30 + digitVal c2, r)] else []) ++
    (if ('1' ≤ c1 ∧ c1 ≤ '2') ∧ isDigitChar c2 then [(10 * digitVal c1 + digitVal c2, r)] else []) ++
    (if c1 = '0' ∧ '1' ≤ c2 ∧ c2 ≤ '9' then [(digitVal c2, r)] else []) ++
    (if '1' ≤ c1 ∧ c1 ≤ '9' then [(digitVal c1, c2 :: r)] else [])
  | [c1] => if '1' ≤ c1 ∧ c1 ≤ '9' then [(digitVal c1, [])] else []
  | [] => []

/-- Candidates for `[0-5]\d|\d` (`%M`). -/
def candsMinute : List Char → List (Nat × List Char)
  | c1 :: c2 :: r =>
    (if ('0' ≤ c1 ∧ c1 ≤ '5') ∧ isDigitChar c2 then [(10 * digitVal c1 + digitVal c2, r)] else []) ++
    (if isDigitChar c1 then [(digitVal c1, c2 :: r)] else [])
  | [c1] => if isDigitChar c1 then [(digitVal c1, [])] else []
  | [] => []

/-- Candidates for `6[0-1]|[0-5]\d|\d` (`%S`; leap seconds pass the regex
but are rejected by the `datetime` constructor). -/
def candsSecond : List Char → List (Nat × List Char)
  | c1 :: c2 :: r =>
    (if c1 = '6' ∧ ('0' ≤ c2 ∧ c2 ≤ '1') then [(60 + digitVal c2, r)] else []) ++
    (if ('0' ≤ c1 ∧ c1 ≤ '5') ∧ isDigitChar c2 then [(10 * digitVal c1 + digitVal c2, r)] else []) ++
    (if isDigitChar c1 then [(digitVal c1, c2 :: r)] else [])
  | [c1] => if isDigitChar c1 then [(digitVal c1, [])] else []
  | [] => []

/-- `%Y`: exactly four digits. -/
def yearParse : List Char → Option (Nat × List Char)
  | c1 :: c2 :: c3 :: c4 :: r =>
    if isDigitChar c1 ∧ isDigitChar c2 ∧ isDigitChar c3 ∧ isDigitChar c4 then
      some (1000 * digitVal c1 + 100 * digitVal c2 + 10 * digitVal c3 + digitVal c4, r)
    else none
  | _ => none

/-- A literal separator character. -/
def sepParse (c : Char) : List Char → Option (List Char)
  | [] => none
  | x :: r => if x = c then some r else none

/-- `%p`: `AM` or `PM`, case-insensitive; returns `true` for PM. -/
def ampmParse : List Char → Option (Bool × List Char)
  | c1 :: c2 :: r =>
    if pyLowerChar c2 = 'm' then
      if pyLowerChar c1 = 'a' then some (false, r)
      else if pyLowerChar c1 = 'p' then some (true, r)
      else none
    else none
  | _ => none

def isLeapYear (y : Nat) : Bool :=
  y % 4 = 0 ∧ (y % 100 ≠ 0 ∨ y % 400 = 0)

def daysInMonth (y m : Nat) : Nat :=
  if m = 2 then (if isLeapYear y then 29 else 28)
  else if m = 4 ∨ m = 6 ∨ m = 9 ∨ m = 11 then 30
  else 31

/-- Zero-padded two-digit rendering. -/
def pad2 (n : Nat) : String := if n < 10 then "0" ++ toString n else toString n

/-- Zero-padded four-digit rendering (years here are always ≤ 9999). -/
def pad4 (n : Nat) : String :=
  if n < 10 then "000" ++ toString n
  else if n < 100 then "00" ++ toString n
  else if n < 1000 then "0" ++ toString n
  else toString n

/-- The full-format scan of `strptime("%m/%d/%Y %I:%M:%S %p")` on the
(stripped) input. -/
def wv511DateScan (cs : List Char) :
    Option (Nat × Nat × Nat × Nat × Nat × Nat × Bool) :=
  tryCands (candsMonth cs) (fun mo r =>
    (sepParse '/' r).bind (fun r =>
      tryCands (candsDay r) (fun d r =>
        (sepParse '/' r).bind (fun r =>
          (yearParse r).bind (fun yr =>
            (dropSpaces1 yr.2).bind (fun r =>
              tryCands (candsMonth r) (fun h r =>
                (sepParse ':' r).bind (fun r =>
                  tryCands (candsMinute r) (fun mi r =>
                    (sepParse ':' r).bind (fun r =>
                      tryCands (candsSecond r) (fun s r =>
                        (dropSpaces1 r).bind (fun r =>
                          (ampmParse r).bind (fun pm =>
                            if pm.2 = [] then
                              some (mo, d, yr.1, h, mi, s, pm.1)
                            else none)))))))))))))

/-- `parse_wv511_date`: strict-format parse, `datetime` range validation,
then the ISO rendering of the UTC-tagged timestamp. -/
def parse_wv511_date (raw : String) : String :=
  match wv511DateScan (stripL raw.toList) with
  | none => ""
  | some (mo, d, y, h, mi, s, isPM) =>
    if y = 0 ∨ s ≥ 60 ∨ d > daysInMonth y mo then ""
    else
      let h24 := if isPM then (if h = 12 then 12 else h + 12)
                 else (if h = 12 then 0 else h)
      pad4 y ++ "-" ++ pad2 mo ++ "-" ++ pad2 d ++ "T" ++ pad2 h24 ++ ":" ++
        pad2 mi ++ ":" ++ pad2 s ++ "+00:00"

theorem parse_wv511_date_examples :
    parse_wv511_date "06/15/2025 02:30:00 PM" = "2025-06-15T14:30:00+00:00" ∧
    parse_wv511_date "02/15/2025 10:30:00 AM" = "2025-02-15T10:30:00+00:00" ∧
    parse_wv511_date "bad date" = "" ∧
    parse_wv511_date "" = "" ∧
    parse_wv511_date "02/30/2025 10:30:00 AM" = "" := by decide

/-! ## WV511 delay-listing block parser -/

/-- The four optional labelled fields collected while scanning a block. -/
structure WvBlock where
  last_updated : String := ""
  county : String := ""
  description : String := ""
  notes : String := ""
deriving DecidableEq, Repr

/-- The inner field-collection loop of `parse_wv511_i79_incidents`:
scans from line index `j` (with `rest` the lines from `j` on), overwriting
fields on repeated labels, and stops before a line that starts a different
route's block (`I-` but not `I-79`) or the next `I-79` block, or at end of
input.  Returns the stop index and the collected fields. -/
def wvScan : List String → Nat → WvBlock → Nat × WvBlock
  | [], j, acc => (j, acc)
  | probe :: rest, j, acc =>
    if startsS "Last Updated:" probe then
      wvScan rest (j + 1) { acc with last_updated := afterColonStrip probe }
    else if startsS "County:" probe then
      wvScan rest (j + 1) { acc with county := afterColonStrip probe }
    else if startsS "Description:" probe then
      wvScan rest (j + 1) { acc with description := afterColonStrip probe }
    else if startsS "Comments:" probe then
      wvScan rest (j + 1) { acc with notes := afterColonStrip probe }
    else if startsS "I-" probe && !startsS "I-79" probe then (j, acc)
    else if startsS "I-79" probe then (j, acc)
    else wvScan rest (j + 1) acc

/-- The `Incident` emitted for an accepted block. -/
def wvIncidentOf (event_title : String) (blk : WvBlock) : Incident :=
  let blob := pyStrip ("I-79 " ++ event_title ++ " " ++ blk.description ++ " " ++ blk.notes)
  let loc := infer_location (blk.county ++ " " ++ blob)
  let title := pyStrip ("I-79 " ++ event_title)
  let pseudo_url := WV511_DELAY_URL ++ "#i79-" ++
    String.mk ((sha1HexUtf8 blob).toList.take 10)
  { id := incident_id pseudo_url title
    title := title
    url := WV511_DELAY_URL
    source := "wv511.org"
    published_at := parse_wv511_date blk.last_updated
    summary := blk.description
    location_text := if blk.county = "" then loc.1 else blk.county
    lat := loc.2.1
    lon := loc.2.2
    construction_related := CONSTRUCTION_TERMS.any (fun t => hasSubS t (lowerL blob))
    suspected_fatalities := extract_fatalities blob
    source_type := "official_wv511"
    verification_status := "official"
    notes := blk.notes }

/-- The outer `while i < len(lines)` loop, fuel-indexed (the source's loop
is unbounded; `wv511_fuel_sufficient` below shows `lines.length` fuel
computes its limit).  `i` is the scan index; on each iteration it advances
to `i + 1` or to `max (i + 1) j`. -/
def wvLoop (lines : List String) : Nat → Nat → List Incident
  | 0, _ => []
  | fuel + 1, i =>
    match lines.drop i with
    | [] => []
    | line :: restAfter =>
      if ¬ startsS "I-79" line then wvLoop lines fuel (i + 1)
      else
        let et0 := pyStrip (String.mk (removeFirstL "I-79".toList line.toList))
        let event_title := if et0 = "" then "Traffic Event" else et0
        let sc := wvScan restAfter (i + 1) {}
        let blk := sc.2
        if lowerS blk.county ∉ NORTH_CENTRAL_COUNTIES then
          wvLoop lines fuel (max (i + 1) sc.1)
        else if blk.description ≠ "" ∧ ¬ hasSubS "i-79" (lowerL blk.description) then
          wvLoop lines fuel (max (i + 1) sc.1)
        else
          wvIncidentOf event_title blk :: wvLoop lines fuel (max (i + 1) sc.1)

/-- `parse_wv511_i79_incidents` (run with the sufficient fuel budget). -/
def parse_wv511_i79_incidents (lines : List String) : List Incident :=
  wvLoop lines lines.length 0

/-! ## Merge & override engine -/

/-- A field patch from `incident_overrides`, post the per-field JSON
coercions of the source (`bool`, `int`, `int`-or-`None`, `str`): an outer
`none` means the key is absent from the patch object. -/
structure Patch where
  construction_related : Option Bool := none
  suspected_fatalities : Option Int := none
  verified_fatalities : Option (Option Int) := none
  verification_status : Option String := none
  notes : Option String := none
deriving DecidableEq, Repr

/-- The body of the `incident_overrides` loop: each field is reassigned
exactly when its key is present in the patch. -/
def applyPatch (inc : Incident) (p : Patch) : Incident :=
  let inc := match p.construction_related with
    | some b => { inc with construction_related := b }
    | none => inc
  let inc := match p.suspected_fatalities with
    | some n => { inc with suspected_fatalities := n }
    | none => inc
  let inc := match p.verified_fatalities with
    | some v => { inc with verified_fatalities := v }
    | none => inc
  let inc := match p.verification_status with
    | some s => { inc with verification_status := s }
    | none => inc
  match p.notes with
  | some s => { inc with notes := s }
  | none => inc

/-- A `manual_incidents` record: a JSON object whose recognised keys are
optional (`none` = key absent triggers the `raw.get` default; for `lat`,
`lon` and `verified_fatalities` a present key may hold `null`).  `title`,
`summary` and `construction_related` collapse absent keys with their
`raw.get` defaults, which the `str()` coercions make equivalent. -/
structure RawManual where
  title : String := ""
  url : Option String := none
  source : Option String := none
  published_at : Option String := none
  summary : String := ""
  location_text : Option String := none
  lat : Option (Option ℚ) := none
  lon : Option (Option ℚ) := none
  construction_related : String := "false"
  suspected_fatalities : Int := 0
  source_type : Option String := none
  verification_status : Option String := none
  verified_fatalities : Option Int := none
  notes : Option String := none
deriving DecidableEq, Repr

/-- The `manual_incidents` loop body: `none` when the record is skipped
for an empty title. -/
def manualIncidentOfRaw (raw : RawManual) : Option Incident :=
  let title := pyStrip raw.title
  let url := match raw.url with
    | none => "manual://local"
    | some u => let s := pyStrip u; if s = "" then "manual://local" else s
  if title = "" then none
  else
    let loc := infer_location (title ++ " " ++ raw.summary)
    some
      { id := incident_id url title
        title := title
        url := url
        source := raw.source.getD "manual"
        published_at := raw.published_at.getD ""
        summary := raw.summary
        location_text := raw.location_text.getD loc.1
        lat := match raw.lat with
          | some v => v
          | none => loc.2.1
        lon := match raw.lon with
          | some v => v
          | none => loc.2.2
        construction_related := text_to_bool raw.construction_related
        suspected_fatalities := raw.suspected_fatalities
        source_type := raw.source_type.getD "manual"
        verification_status := raw.verification_status.getD "verified"
        verified_fatalities := raw.verified_fatalities
        notes := raw.notes.getD "" }

/-- The manual-overrides document (`incident_overrides` iterated in
insertion order, as a Python dict is). -/
structure Payload where
  incident_overrides : List (String × Patch) := []
  manual_incidents : List RawManual := []

def emptyPayload : Payload := {}

/-- `by_id[inc.id] = inc` on an id-keyed association list: replaces the
entry in place when the key exists (a Python dict keeps the key's original
position), else appends. -/
def upsertById (m : List (String × Incident)) (inc : Incident) :
    List (String × Incident) :=
  if m.any (fun e => e.1 == inc.id) then
    m.map (fun e => if e.1 == inc.id then (e.1, inc) else e)
  else m ++ [(inc.id, inc)]

/-- One `incident_overrides` entry: patch the entry with key `k` if
present, else do nothing (`by_id.get` miss → `continue`). -/
def patchAt (m : List (String × Incident)) (k : String) (p : Patch) :
    List (String × Incident) :=
  m.map (fun e => if e.1 == k then (e.1, applyPatch e.2 p) else e)

/-- `apply_manual_overrides`: build `by_id` from the input list (later
duplicates overwrite earlier ones), apply field patches, insert manual
records, and return the dict's values. -/
def apply_manual_overrides (incidents : List Incident) (payload : Payload) :
    List Incident :=
  let m0 := incidents.foldl upsertById []
  let m1 := payload.incident_overrides.foldl (fun m kp => patchAt m kp.1 kp.2) m0
  let m2 := payload.manual_incidents.foldl
    (fun m raw =>
      match manualIncidentOfRaw raw with
      | some inc => upsertById m inc
      | none => m) m1
  m2.map (fun e => e.2)

/-! ## `build_dataset` (merge pipeline)

Network and upstream wire-format stages are inputs: `feeds` holds the
parsed item rows of each successfully fetched RSS feed
(`iter_feed_items`), `wv` is `fetch_wv511_incidents()`'s result, `wdtv` is
`fetch_wdtv_historical_incidents()`'s, and `wboy` holds
`to_wboy_incident`'s per-post results (`none` = rejected post).  `pd`
models the `email.utils` RFC-2822 parse used for nonempty feed dates.
Everything downstream of those boundaries follows the source.  The
aggregate `summary` statistics are not modelled (no claim concerns them). -/

structure FeedItem where
  title : String
  link : String
  description : String
  pub_date : String
  source : String
deriving DecidableEq, Repr

/-- `parse_date`: empty input short-circuits to `""`; nonempty input is
handed to the RFC-2822 wire-format collaborator `pd`. -/
def parse_date (pd : String → String) (raw : String) : String :=
  if raw = "" then "" else pd raw

/-- The body of `build_dataset`'s RSS loop for one feed item, threading
the `seen` id set and the accumulating list. -/
def feedStep (pd : String → String) (st : List String × List Incident)
    (item : FeedItem) : List String × List Incident :=
  let blob := item.title ++ " " ++ item.description
  if ¬ likely_relevant blob then st
  else if item.link = "" then st
  else
    let iid := incident_id item.link item.title
    if iid ∈ st.1 then st
    else
      let loc := infer_location blob
      (iid :: st.1, st.2 ++ [{
        id := iid
        title := item.title
        url := item.link
        source := item.source
        published_at := parse_date pd item.pub_date
        summary := item.description
        location_text := loc.1
        lat := loc.2.1
        lon := loc.2.2
        construction_related := CONSTRUCTION_TERMS.any (fun t => hasSubS t (lowerL blob))
        suspected_fatalities := extract_fatalities blob
        source_type := "news"
        verification_status := "unverified" }])

/-- The seen-guarded append used by the wdtv and wboy loops. -/
def seenStep (st : List String × List Incident) (inc : Incident) :
    List String × List Incident :=
  if inc.id ∈ st.1 then st else (inc.id :: st.1, st.2 ++ [inc])

/-- The candidate list assembled by `build_dataset` before
`apply_manual_overrides`: RSS feeds (seen-checked), then the WV511
incidents (extended without consulting or updating `seen`), then the wdtv
and wboy candidates (seen-checked). -/
def mergedCandidates (pd : String → String) (feeds : List (List FeedItem))
    (wv wdtv : List Incident) (wboy : List (Option Incident)) :
    List String × List Incident :=
  let st1 := feeds.foldl (fun st items => items.foldl (feedStep pd) st) ([], [])
  let st2 : List String × List Incident := (st1.1, st1.2 ++ wv)
  let st3 := wdtv.foldl seenStep st2
  wboy.foldl (fun st o =>
    match o with
    | none => st
    | some inc => seenStep st inc) st3

/-- Python string `<`: code-point lexicographic order. -/
def strLtL : List Char → List Char → Bool
  | [], [] => false
  | [], _ :: _ => true
  | _ :: _, [] => false
  | a :: xs, b :: ys =>
    if a.toNat < b.toNat then true
    else if b.toNat < a.toNat then false
    else strLtL xs ys

/-- Descending comparison on `published_at` (Python string order is
code-point lexicographic): `a` may precede `b` when `a`'s key is not
smaller. -/
def pubDescLe (a b : Incident) : Bool :=
  !(strLtL a.published_at.toList b.published_at.toList)

/-- `a` must precede `b` strictly (its key is strictly greater). -/
def pubLtStrict (a b : Incident) : Bool := pubDescLe a b && !(pubDescLe b a)

/-- Stable insertion into a descending-sorted prefix: a later element goes
after every element it ties with. -/
def insertByPub (x : Incident) : List Incident → List Incident
  | [] => [x]
  | y :: ys => if pubLtStrict x y then x :: y :: ys else y :: insertByPub x ys

/-- Stable sort by `published_at` descending, empty keys last — a stable
sort under a total preorder is unique, so this insertion sort computes
exactly CPython's `list.sort(key=lambda x: x.published_at or "",
reverse=True)`. -/
def sortByPubDesc (xs : List Incident) : List Incident :=
  xs.foldl (fun acc x => insertByPub x acc) []

/-- The incidents list `build_dataset` produces: merge all sources,
apply overrides, sort by `published_at` descending (empty last). -/
def build_dataset_incidents (pd : String → String) (feeds : List (List FeedItem))
    (wv wdtv : List Incident) (wboy : List (Option Incident))
    (payload : Payload) : List Incident :=
  sortByPubDesc (apply_manual_overrides (mergedCandidates pd feeds wv wdtv wboy).2 payload)

/-! ## Estimator range lemmas -/

/-- A value surviving one pattern iteration passed the `0 < value <= 10`
acceptance test. -/
theorem tryPat_range {p : List Char → Option Nat} {l : List Char} {v : Nat}
    (h : tryPat p l = some v) : 0 < v ∧ v ≤ 10 := by
  unfold tryPat at h
  rcases hs : searchSimple p l with _ | w <;> rw [hs] at h
  · exact absurd h (by simp)
  · dsimp at h
    split at h
    · cases h; assumption
    · exact absurd h (by simp)

/-- The four-pattern loop only yields values in `(0, 10]`. -/
theorem acceptedNumeric_range {l : List Char} {v : Nat}
    (h : acceptedNumeric l = some v) : 0 < v ∧ v ≤ 10 := by
  unfold acceptedNumeric at h
  rcases h1 : tryPat pat1At l with _ | w <;> rw [h1] at h
  · rcases h2 : tryPat pat2At l with _ | w <;> rw [h2] at h
    · rcases h3 : tryPat pat3At l with _ | w <;> rw [h3] at h
      · exact tryPat_range h
      · cases h; exact tryPat_range h3
    · cases h; exact tryPat_range h2
  · cases h; exact tryPat_range h1

/-- A successful boundary-threading search has a successful anchored match. -/
theorem searchBnd_exists {p : Bool → List Char → Option Nat} {v : Nat} :
    ∀ {b : Bool} {cs : List Char}, searchBnd p b cs = some v →
      ∃ b' cs', p b' cs' = some v := by
  intro b cs
  induction cs generalizing b with
  | nil => intro h; exact ⟨b, [], h⟩
  | cons c rest ih =>
    intro h
    unfold searchBnd at h
    rcases hp : p b (c :: rest) with _ | w <;> rw [hp] at h
    · exact ih h
    · cases h; exact ⟨b, c :: rest, hp⟩

/-- A spelled-number alternation only returns values from its table. -/
theorem spelledAlt_mem {k : List Char → Option Unit} {cs : List Char} {v : Nat} :
    ∀ {alts : List (String × Nat)}, spelledAlt alts k cs = some v →
      ∃ w, (w, v) ∈ alts := by
  intro alts
  induction alts with
  | nil => intro h; exact absurd h (by simp [spelledAlt])
  | cons wv rest ih =>
    intro h
    unfold spelledAlt at h
    split at h
    · split at h
      · cases h; exact ⟨wv.1, by simp⟩
      · obtain ⟨w, hw⟩ := ih h; exact ⟨w, List.mem_cons_of_mem _ hw⟩
    · obtain ⟨w, hw⟩ := ih h; exact ⟨w, List.mem_cons_of_mem _ hw⟩

/-- Table values of `SPELLED_NUMBERS` lie in `[1, 6]`. -/
theorem SPELLED_NUMBERS_range {w : String} {v : Nat}
    (h : (w, v) ∈ SPELLED_NUMBERS) : 1 ≤ v ∧ v ≤ 6 := by
  simp [SPELLED_NUMBERS] at h
  rcases h with ⟨_, rfl⟩ | ⟨_, rfl⟩ | ⟨_, rfl⟩ | ⟨_, rfl⟩ | ⟨_, rfl⟩ | ⟨_, rfl⟩ <;> omega

/-- The first spelled pattern only yields values in `[1, 6]`. -/
theorem spelled1_range {b : Bool} {cs : List Char} {v : Nat}
    (h : searchBnd spelled1At b cs = some v) : 1 ≤ v ∧ v ≤ 6 := by
  obtain ⟨b', cs', hp⟩ := searchBnd_exists h
  unfold spelled1At at hp
  split at hp
  · exact absurd hp (by simp)
  · obtain ⟨w, hw⟩ := spelledAlt_mem hp
    exact SPELLED_NUMBERS_range hw

/-- The second spelled pattern only yields values in `[1, 6]`. -/
theorem spelled2_range {b : Bool} {cs : List Char} {v : Nat}
    (h : searchBnd spelled2At b cs = some v) : 1 ≤ v ∧ v ≤ 6 := by
  obtain ⟨b', cs', hp⟩ := searchBnd_exists h
  unfold spelled2At at hp
  split at hp
  · exact absurd hp (by simp)
  · obtain ⟨w, hw⟩ := spelledAlt_mem hp
    exact SPELLED_NUMBERS_range hw

/-- C3: in the fatality estimator, a captured numeric count is accepted only
when it is strictly positive and at most 10; a larger capture is treated as
unparsed, so "15 dead in massive pileup" falls back to the single-fatality
default and yields exactly 1. -/
theorem extract_fatalities_cap :
    (∀ (l : List Char) (v : Nat), acceptedNumeric l = some v → 0 < v ∧ v ≤ 10) ∧
    extract_fatalities "15 dead in massive pileup" = 1 :=
  ⟨fun _ _ h => acceptedNumeric_range h, by decide⟩

/-- Witness for `extract_fatalities_cap`: the numeric-capture hypothesis is
discharged on the concrete text "2 dead on I-79". -/
theorem extract_fatalities_cap_witness : 0 < 2 ∧ 2 ≤ 10 :=
  extract_fatalities_cap.1 (lowerL "2 dead on I-79") 2 (by decide)

/-- Case shape of `extract_fatalities`: it returns 0 exactly on clue-free
text, and a value in `[1, 10]` on clue-bearing text. -/
theorem extract_fatalities_shape (text : String) :
    (hasFatalClue (lowerL text) = false ∧ extract_fatalities text = 0) ∨
    (hasFatalClue (lowerL text) = true ∧ 1 ≤ extract_fatalities text ∧
      extract_fatalities text ≤ 10) := by
  rcases hc : hasFatalClue (lowerL text) with _ | _
  · refine Or.inl ⟨rfl, ?_⟩
    unfold extract_fatalities
    simp [hc]
  · refine Or.inr ⟨rfl, ?_⟩
    unfold extract_fatalities
    simp only [hc, Bool.not_true, Bool.false_eq_true, if_false]
    rcases h1 : acceptedNumeric (lowerL text) with _ | v
    · rcases h2 : searchBnd spelled1At false (lowerL text) with _ | v
      · rcases h3 : searchBnd spelled2At false (lowerL text) with _ | v
        · norm_num
        · have hb := spelled2_range h3
          have hb1 : (1 : Int) ≤ (v : Int) := by exact_mod_cast hb.1
          have hb2 : (v : Int) ≤ 10 := by
            have : v ≤ 10 := le_trans hb.2 (by norm_num)
            exact_mod_cast this
          exact ⟨hb1, hb2⟩
      · have hb := spelled1_range h2
        have hb1 : (1 : Int) ≤ (v : Int) := by exact_mod_cast hb.1
        have hb2 : (v : Int) ≤ 10 := by
          have : v ≤ 10 := le_trans hb.2 (by norm_num)
          exact_mod_cast this
        exact ⟨hb1, hb2⟩
    · have hb := acceptedNumeric_range h1
      have hb1 : (1 : Int) ≤ (v : Int) := by exact_mod_cast hb.1
      have hb2 : (v : Int) ≤ 10 := by exact_mod_cast hb.2
      exact ⟨hb1, hb2⟩

/-- C10: the fatality estimate is always between 0 and 10: numeric captures
are capped at 10, spelled numbers reach only 6, and the fallbacks are 0
and 1. -/
theorem extract_fatalities_bounded (text : String) :
    0 ≤ extract_fatalities text ∧ extract_fatalities text ≤ 10 := by
  rcases extract_fatalities_shape text with ⟨_, h⟩ | ⟨_, h1, h2⟩
  · rw [h]; exact ⟨le_refl 0, by norm_num⟩
  · exact ⟨le_trans (by norm_num) h1, h2⟩

/-- C5: the estimator is monotonically conservative — without any
fatal-clue phrase in the lowered text it returns 0, and with one present it
returns at least 1. -/
theorem extract_fatalities_conservative (text : String) :
    (hasFatalClue (lowerL text) = false → extract_fatalities text = 0) ∧
    (hasFatalClue (lowerL text) = true → 1 ≤ extract_fatalities text) := by
  rcases extract_fatalities_shape text with ⟨hc, h⟩ | ⟨hc, h1, _⟩
  · exact ⟨fun _ => h, fun htrue => absurd (hc ▸ htrue) (by simp)⟩
  · exact ⟨fun hfalse => absurd (hc ▸ hfalse) (by simp), fun _ => h1⟩

/-- Witness for `extract_fatalities_conservative`: both hypotheses are
discharged concretely — a clue-free text yields 0, a clue-bearing one at
least 1. -/
theorem extract_fatalities_conservative_witness :
    extract_fatalities "Traffic backup on I-79 near Fairmont" = 0 ∧
    1 ≤ extract_fatalities "fatal crash on I-79" :=
  ⟨(extract_fatalities_conservative "Traffic backup on I-79 near Fairmont").1 (by decide),
   (extract_fatalities_conservative "fatal crash on I-79").2 (by decide)⟩

/-! ## Resolver lemmas -/

/-- `pickMin` (the head of the stable sort by start index) returns a member
of the candidate list attaining the minimal start index. -/
theorem pickMin_spec (m : Nat × String) (rest : List (Nat × String)) :
    pickMin m rest ∈ m :: rest ∧ ∀ x ∈ m :: rest, (pickMin m rest).1 ≤ x.1 := by
  induction rest generalizing m with
  | nil => exact ⟨List.mem_singleton.mpr rfl, by
      intro x hx
      rcases List.mem_singleton.mp hx with rfl
      exact le_refl _⟩
  | cons b rest ih =>
    have hstep : pickMin m (b :: rest) = pickMin (if b.1 < m.1 then b else m) rest := rfl
    obtain ⟨hmem, hle⟩ := ih (if b.1 < m.1 then b else m)
    constructor
    · rw [hstep]
      rcases List.mem_cons.mp hmem with heq | hmemr
      · rw [heq]
        split
        · exact List.mem_cons_of_mem _ (List.mem_cons_self _ _)
        · exact List.mem_cons_self _ _
      · exact List.mem_cons_of_mem _ (List.mem_cons_of_mem _ hmemr)
    · intro x hx
      rw [hstep]
      have hstepmin : (pickMin (if b.1 < m.1 then b else m) rest).1 ≤
          (if b.1 < m.1 then b else m).1 :=
        hle _ (List.mem_cons_self _ _)
      rcases List.mem_cons.mp hx with rfl | hx'
      · refine le_trans hstepmin ?_
        split <;> omega
      · rcases List.mem_cons.mp hx' with rfl | hx''
        · refine le_trans hstepmin ?_
          split <;> omega
        · exact hle _ (List.mem_cons_of_mem _ hx'')

/-- C4: `infer_location` follows the two-phase priority algorithm: with no
word-boundary county match it falls back to the first place-table substring
hit (or the sentinel); with county matches present it returns a matched
county whose match start is minimal (leftmost-wins), title-cased, with its
table coordinates. -/
theorem infer_location_two_phase (text : String) :
    (countyMatches (lowerL text) = [] → tableFirst (lowerL text) = none →
      infer_location text = ("Unspecified stretch", none, none)) ∧
    (∀ place la lo, countyMatches (lowerL text) = [] →
      tableFirst (lowerL text) = some (place, la, lo) →
      infer_location text = (pyTitle place, some la, some lo)) ∧
    (∀ m, m ∈ countyMatches (lowerL text) →
      ∃ pr, pr ∈ countyMatches (lowerL text) ∧
        (∀ x ∈ countyMatches (lowerL text), pr.1 ≤ x.1) ∧
        infer_location text =
          (pyTitle pr.2, some (hintCoords pr.2).1, some (hintCoords pr.2).2)) := by
  refine ⟨?_, ?_, ?_⟩
  · intro hc ht
    unfold infer_location
    simp only [hc, ht]
  · intro place la lo hc ht
    unfold infer_location
    simp only [hc, ht]
  · intro m hm
    rcases hc : countyMatches (lowerL text) with _ | ⟨m0, rest⟩
    · rw [hc] at hm; exact absurd hm (List.not_mem_nil m)
    · obtain ⟨hmem, hle⟩ := pickMin_spec m0 rest
      refine ⟨pickMin m0 rest, hc ▸ hmem, hc ▸ hle, ?_⟩
      unfold infer_location
      simp only [hc]

/-- Witness for `infer_location_two_phase`: on a text containing a city and
two counties, the county-membership hypothesis is discharged concretely
(the resolver picks the leftmost county, not the city, not table order). -/
theorem infer_location_two_phase_witness :
    ∃ pr, pr ∈ countyMatches (lowerL "fairmont marion county and monongalia county") ∧
      (∀ x ∈ countyMatches (lowerL "fairmont marion county and monongalia county"), pr.1 ≤ x.1) ∧
      infer_location "fairmont marion county and monongalia county" =
        (pyTitle pr.2, some (hintCoords pr.2).1, some (hintCoords pr.2).2) :=
  (infer_location_two_phase "fairmont marion county and monongalia county").2.2
    (27, "monongalia county") (by decide)

/-! ## Delay-listing parser lemmas -/

/-- Every incident the scanning loop emits is the block incident of some
title/fields whose County field, lower-cased, passed the in-scope check. -/
theorem wvLoop_mem {lines : List String} :
    ∀ {fuel i : Nat} {inc : Incident}, inc ∈ wvLoop lines fuel i →
      ∃ et blk, inc = wvIncidentOf et blk ∧
        lowerS blk.county ∈ NORTH_CENTRAL_COUNTIES := by
  intro fuel
  induction fuel with
  | zero =>
    intro i inc h
    exact absurd h (List.not_mem_nil _)
  | succ fuel ih =>
    intro i inc h
    unfold wvLoop at h
    rcases hd : lines.drop i with _ | ⟨line, rest⟩ <;> rw [hd] at h
    · exact absurd h (List.not_mem_nil _)
    · simp only [] at h
      split at h
      · exact ih h
      · split at h
        · exact ih h
        · split at h
          · exact ih h
          · rcases List.mem_cons.mp h with rfl | hmem
            · rename_i hcounty _
              exact ⟨_, _, rfl, not_not.mp hcounty⟩
            · exact ih hmem

/-- C6: every incident the delay-listing parser outputs carries a County
field (stored as its `location_text`) that, lower-cased, is one of the
three in-scope counties — out-of-scope blocks are excluded entirely. -/
theorem wv511_county_filter (lines : List String) (inc : Incident)
    (h : inc ∈ parse_wv511_i79_incidents lines) :
    lowerS inc.location_text ∈ NORTH_CENTRAL_COUNTIES := by
  obtain ⟨et, blk, rfl, hc⟩ := wvLoop_mem h
  show lowerS (wvIncidentOf et blk).location_text ∈ _
  simp only [wvIncidentOf]
  split
  · rename_i hempty
    rw [hempty] at hc
    exact absurd hc (by decide)
  · exact hc

/-- The delay-listing lines of the spec's end-to-end scenario. -/
def wvExampleLines : List String :=
  ["I-79 Possible Delay",
   "Last Updated: 02/15/2025 10:30:00 AM",
   "County: Marion County",
   "Description: I-79 southbound lane closure near Fairmont due to crash.",
   "Comments: Use caution"]

/-- Sanity check: the spec's end-to-end delay-listing scenario yields
exactly one official incident for Marion County with the parsed timestamp. -/
theorem parse_wv511_example :
    (parse_wv511_i79_incidents wvExampleLines).map
      (fun i => (i.source_type, i.verification_status, i.location_text,
        i.published_at, i.notes)) =
    [("official_wv511", "official", "Marion County",
      "2025-02-15T10:30:00+00:00", "Use caution")] := by decide

/-- An all-default incident used as a list-access fallback in witnesses. -/
def blankIncident : Incident :=
  { id := "", title := "", url := "", source := "", published_at := "",
    summary := "", location_text := "", lat := none, lon := none,
    construction_related := false, suspected_fatalities := 0 }

/-- Witness for `wv511_county_filter`: the membership hypothesis is
discharged on the spec's example block. -/
theorem wv511_county_filter_witness :
    lowerS ((parse_wv511_i79_incidents wvExampleLines).headD blankIncident).location_text
      ∈ NORTH_CENTRAL_COUNTIES :=
  wv511_county_filter wvExampleLines _ (by decide)

/-- The scan result is fuel-independent once the fuel covers the remaining
lines: the loop's index strictly increases (to `i + 1` or `max (i + 1) j`),
so `lines.length - i` iterations always suffice — the source's unbounded
`while` loop terminates on every finite input. -/
theorem wvLoop_fuel_stable (lines : List String) :
    ∀ f1 f2 i, lines.length - i ≤ f1 → lines.length - i ≤ f2 →
      wvLoop lines f1 i = wvLoop lines f2 i := by
  intro f1
  induction f1 with
  | zero =>
    intro f2 i h1 h2
    have hd : lines.drop i = [] := List.drop_eq_nil_of_le (by omega)
    cases f2 with
    | zero => rfl
    | succ k => simp only [wvLoop, hd]
  | succ f1 ih =>
    intro f2 i h1 h2
    cases f2 with
    | zero =>
      have hd : lines.drop i = [] := List.drop_eq_nil_of_le (by omega)
      simp only [wvLoop, hd]
    | succ k =>
      rcases hd : lines.drop i with _ | ⟨line, rest⟩
      · simp only [wvLoop, hd]
      · have hlen : i < lines.length := by
          by_contra hh
          rw [List.drop_eq_nil_of_le (by omega)] at hd
          exact absurd hd (by simp)
        have hmax : i + 1 ≤ max (i + 1) (wvScan rest (i + 1) {}).1 :=
          Nat.le_max_left _ _
        simp only [wvLoop, hd]
        split_ifs <;>
          first
            | exact ih k (i + 1) (by omega) (by omega)
            | exact ih k (max (i + 1) (wvScan rest (i + 1) {}).1) (by omega) (by omega)
            | exact congrArg _ (ih k (max (i + 1) (wvScan rest (i + 1) {}).1)
                (by omega) (by omega))

/-- C9: the delay-listing parser terminates on every finite input — any
fuel budget of at least `lines.length` computes the loop's limit, i.e. the
parser's output. -/
theorem wv511_parser_terminates (lines : List String) (fuel : Nat)
    (h : lines.length ≤ fuel) :
    wvLoop lines fuel 0 = parse_wv511_i79_incidents lines :=
  wvLoop_fuel_stable lines fuel lines.length 0 (by omega) (by omega)

/-- Witness for `wv511_parser_terminates`: a fuel budget of 40 on the
5-line example computes the parser's output. -/
theorem wv511_parser_terminates_witness :
    wvLoop wvExampleLines 40 0 = parse_wv511_i79_incidents wvExampleLines :=
  wv511_parser_terminates wvExampleLines 40 (by decide)

/-! ## Override-patch lemmas -/

/-- Patching never changes the incident id. -/
theorem applyPatch_id (inc : Incident) (p : Patch) :
    (applyPatch inc p).id = inc.id := by
  obtain ⟨a, b, c, d, e⟩ := p
  cases a <;> cases b <;> cases c <;> cases d <;> cases e <;> rfl

/-- C7: an override patch only reassigns the fields whose keys are present:
the ten non-patchable fields are always unchanged, each patchable field is
unchanged when its key is absent, and a present `verified_fatalities: null`
explicitly clears that field. -/
theorem override_patch_frame (inc : Incident) (p : Patch) :
    ((applyPatch inc p).id = inc.id ∧ (applyPatch inc p).title = inc.title ∧
     (applyPatch inc p).url = inc.url ∧ (applyPatch inc p).source = inc.source ∧
     (applyPatch inc p).published_at = inc.published_at ∧
     (applyPatch inc p).summary = inc.summary ∧
     (applyPatch inc p).location_text = inc.location_text ∧
     (applyPatch inc p).lat = inc.lat ∧ (applyPatch inc p).lon = inc.lon ∧
     (applyPatch inc p).source_type = inc.source_type) ∧
    (p.construction_related = none →
      (applyPatch inc p).construction_related = inc.construction_related) ∧
    (p.suspected_fatalities = none →
      (applyPatch inc p).suspected_fatalities = inc.suspected_fatalities) ∧
    (p.verified_fatalities = none →
      (applyPatch inc p).verified_fatalities = inc.verified_fatalities) ∧
    (p.verification_status = none →
      (applyPatch inc p).verification_status = inc.verification_status) ∧
    (p.notes = none → (applyPatch inc p).notes = inc.notes) ∧
    (p.verified_fatalities = some none →
      (applyPatch inc p).verified_fatalities = none) := by
  obtain ⟨a, b, c, d, e⟩ := p
  cases a <;> cases b <;> cases c <;> cases d <;> cases e <;>
    simp [applyPatch]

/-- The base incident of the repository's override unit tests. -/
def sampleIncident : Incident :=
  { id := "aabbccddeeff", title := "Test crash", url := "https://example.com/article",
    source := "example.com", published_at := "2025-01-01T00:00:00+00:00",
    summary := "A crash on I-79.", location_text := "Marion County",
    lat := some (q4 394568), lon := some (q4 (-801542)),
    construction_related := false, suspected_fatalities := 0 }

/-- A patch that only clears `verified_fatalities` (present with `null`). -/
def samplePatch : Patch := { verified_fatalities := some none }

/-- Witness for `override_patch_frame`: on a concrete incident and a patch
carrying only `verified_fatalities: null`, the absent `notes` key leaves
notes unchanged and the present null key clears the field. -/
theorem override_patch_frame_witness :
    (applyPatch sampleIncident samplePatch).notes = sampleIncident.notes ∧
    (applyPatch sampleIncident samplePatch).verified_fatalities = none :=
  ⟨(override_patch_frame sampleIncident samplePatch).2.2.2.2.2.1 rfl,
   (override_patch_frame sampleIncident samplePatch).2.2.2.2.2.2 rfl⟩

/-! ## Coordinate pairing (C2) -/

/-- The resolver returns both coordinates or neither. -/
theorem infer_location_paired (t : String) :
    ((infer_location t).2.1).isSome = ((infer_location t).2.2).isSome := by
  unfold infer_location
  rcases hc : countyMatches (lowerL t) with _ | ⟨m, rest⟩ <;> simp only [hc]
  · rcases ht : tableFirst (lowerL t) with _ | ⟨p, la, lo⟩ <;> simp [ht]
  · simp

/-- A generic fold-preservation helper for the pipeline's accumulating
loops. -/
theorem foldl_preserve {α : Type _} {σ : Type _} (P : σ → Prop)
    (step : σ → α → σ) (h : ∀ s a, P s → P (step s a)) :
    ∀ (xs : List α) (s : σ), P s → P (xs.foldl step s) := by
  intro xs
  induction xs with
  | nil => intro s hs; exact hs
  | cons x xs ih => intro s hs; exact ih _ (h s x hs)

/-- One feed step preserves "all accumulated incidents have paired
coordinates": a fresh feed incident takes both coordinates from the
resolver. -/
theorem feedStep_paired (pd : String → String) (st : List String × List Incident)
    (item : FeedItem) (hP : ∀ inc ∈ st.2, inc.lat.isSome = inc.lon.isSome) :
    ∀ inc ∈ (feedStep pd st item).2, inc.lat.isSome = inc.lon.isSome := by
  intro inc hmem
  simp only [feedStep] at hmem
  split at hmem
  · exact hP inc hmem
  · split at hmem
    · exact hP inc hmem
    · split at hmem
      · exact hP inc hmem
      · dsimp only at hmem
        rcases List.mem_append.mp hmem with hl | hr
        · exact hP inc hl
        · rcases List.mem_singleton.mp hr with rfl
          exact infer_location_paired _

/-- Delay-listing incidents take both coordinates from the resolver. -/
theorem wv511_paired (lines : List String) (inc : Incident)
    (h : inc ∈ parse_wv511_i79_incidents lines) :
    inc.lat.isSome = inc.lon.isSome := by
  obtain ⟨et, blk, rfl, _⟩ := wvLoop_mem h
  simp only [wvIncidentOf]
  exact infer_location_paired _

/-- A manual record whose payload omits both coordinate keys inherits the
resolver's paired coordinates. -/
theorem manual_paired (raw : RawManual) (inc : Incident) (hlat : raw.lat = none)
    (hlon : raw.lon = none) (h : manualIncidentOfRaw raw = some inc) :
    inc.lat.isSome = inc.lon.isSome := by
  simp only [manualIncidentOfRaw, hlat, hlon] at h
  split at h
  · exact absurd h (by simp)
  · injection h with h'
    subst h'
    exact infer_location_paired _

/-- A manual-incident payload carrying a `lat` value but no `lon` key. -/
def cexManualRaw : RawManual := { title := "zzz", lat := some (some 1) }

/-- Counterexample to C2 as stated: a manual record whose payload supplies
only `lat` produces a final incident with `lat` set and `lon` null. -/
theorem manual_breaks_lat_lon_pairing :
    (apply_manual_overrides [] { manual_incidents := [cexManualRaw] }).map
      (fun i => (i.lat, i.lon)) = [(some 1, none)] := by decide

/-! ## Association-list (`by_id` dict) lemmas -/

/-- Well-formedness of the `by_id` association list: every entry is keyed
by its incident's id, and keys are distinct (as in a Python dict). -/
def keyedWF (m : List (String × Incident)) : Prop :=
  (∀ e ∈ m, e.2.id = e.1) ∧ (m.map Prod.fst).Nodup

/-- `by_id` insertion preserves well-formedness. -/
theorem upsertById_WF (m : List (String × Incident)) (x : Incident)
    (h : keyedWF m) : keyedWF (upsertById m x) := by
  obtain ⟨h1, h2⟩ := h
  unfold upsertById
  split
  · constructor
    · intro e he
      rcases List.mem_map.mp he with ⟨e', he', rfl⟩
      show (if e'.1 == x.id then (e'.1, x) else e').2.id
        = (if e'.1 == x.id then (e'.1, x) else e').1
      split
      · rename_i hbe
        exact (eq_of_beq hbe).symm
      · exact h1 e' he'
    · have hkeys : (m.map (fun e => if e.1 == x.id then (e.1, x) else e)).map Prod.fst
          = m.map Prod.fst := by
        rw [List.map_map]
        apply List.map_congr_left
        intro e _
        simp only [Function.comp]
        split <;> rfl
      rw [hkeys]
      exact h2
  · rename_i hany
    have hnotin : x.id ∉ m.map Prod.fst := by
      intro hcontra
      rcases List.mem_map.mp hcontra with ⟨e, he, heq⟩
      exact hany (List.any_eq_true.mpr ⟨e, he, by rw [heq]; exact beq_self_eq_true _⟩)
    constructor
    · intro e he
      rcases List.mem_append.mp he with hl | hr
      · exact h1 e hl
      · rcases List.mem_singleton.mp hr with rfl
        rfl
    · rw [List.map_append, List.nodup_append]
      exact ⟨h2, List.nodup_singleton _, by
        intro a ha hb
        rcases List.mem_singleton.mp hb with rfl
        exact hnotin ha⟩

/-- Patching an entry preserves well-formedness (`applyPatch` keeps ids). -/
theorem patchAt_WF (m : List (String × Incident)) (k : String) (p : Patch)
    (h : keyedWF m) : keyedWF (patchAt m k p) := by
  obtain ⟨h1, h2⟩ := h
  unfold patchAt
  constructor
  · intro e he
    rcases List.mem_map.mp he with ⟨e', he', rfl⟩
    show (if e'.1 == k then (e'.1, applyPatch e'.2 p) else e').2.id
      = (if e'.1 == k then (e'.1, applyPatch e'.2 p) else e').1
    split
    · rename_i hbe
      show (applyPatch e'.2 p).id = e'.1
      rw [applyPatch_id]
      exact h1 e' he'
    · exact h1 e' he'
  · have hkeys : (m.map (fun e => if e.1 == k then (e.1, applyPatch e.2 p) else e)).map Prod.fst
        = m.map Prod.fst := by
      rw [List.map_map]
      apply List.map_congr_left
      intro e _
      simp only [Function.comp]
      split <;> rfl
    rw [hkeys]
    exact h2

/-- The dict built by `apply_manual_overrides` is well-formed after every
stage. -/
theorem apply_manual_overrides_WF (xs : List Incident) (payload : Payload) :
    keyedWF (payload.manual_incidents.foldl
      (fun m raw =>
        match manualIncidentOfRaw raw with
        | some inc => upsertById m inc
        | none => m)
      (payload.incident_overrides.foldl (fun m kp => patchAt m kp.1 kp.2)
        (xs.foldl upsertById []))) := by
  have h0 : keyedWF (xs.foldl upsertById []) :=
    foldl_preserve keyedWF upsertById (fun m x hm => upsertById_WF m x hm) xs []
      ⟨fun e he => absurd he (List.not_mem_nil _), List.nodup_nil⟩
  have h1 := foldl_preserve keyedWF (fun m kp => patchAt m kp.1 kp.2)
    (fun m kp hm => patchAt_WF m kp.1 kp.2 hm) payload.incident_overrides _ h0
  exact foldl_preserve keyedWF _
    (fun m raw hm => by
      split
      · exact upsertById_WF m _ hm
      · exact hm) payload.manual_incidents _ h1

/-- Searching the dict's values by id equals searching its entries by key. -/
theorem find_values (m : List (String × Incident)) (k : String)
    (h : ∀ e ∈ m, e.2.id = e.1) :
    (m.map Prod.snd).find? (fun i => i.id == k) =
      (m.find? (fun e => e.1 == k)).map Prod.snd := by
  induction m with
  | nil => rfl
  | cons e rest ih =>
    have he : e.2.id = e.1 := h e (List.mem_cons_self _ _)
    simp only [List.map_cons, List.find?_cons, he]
    cases e.1 == k
    · exact ih (fun e' he' => h e' (List.mem_cons_of_mem _ he'))
    · rfl

/-- Looking up a key other than the inserted id ignores a map-replacement
of that id's entries. -/
theorem find_map_replace_ne (x : Incident) (k : String) (hne : x.id ≠ k) :
    ∀ m : List (String × Incident),
      ((m.map (fun e => if e.1 == x.id then (e.1, x) else e)).find?
        (fun e => e.1 == k)).map Prod.snd =
      (m.find? (fun e => e.1 == k)).map Prod.snd := by
  intro m
  induction m with
  | nil => rfl
  | cons e rest ih =>
    rcases he : (e.1 == x.id) with _ | _
    · rcases hek : (e.1 == k) with _ | _ <;>
        simp only [List.map_cons, he, Bool.false_eq_true, if_false,
          List.find?_cons, hek] <;>
        first
          | rfl
          | exact ih
    · have hek : (e.1 == k) = false := by
        rw [eq_of_beq he]
        exact beq_eq_false_iff_ne.mpr hne
      simp only [List.map_cons, he, if_true, List.find?_cons, hek]
      exact ih

/-- Looking up the inserted id after a map-replacement finds the new
incident, provided some entry had that key. -/
theorem find_map_replace_self (x : Incident) :
    ∀ m : List (String × Incident), m.any (fun e => e.1 == x.id) = true →
      ((m.map (fun e => if e.1 == x.id then (e.1, x) else e)).find?
        (fun e => e.1 == x.id)).map Prod.snd = some x := by
  intro m
  induction m with
  | nil => intro h; simp at h
  | cons e rest ih =>
    intro hany
    rcases he : (e.1 == x.id) with _ | _
    · have hany' : rest.any (fun e => e.1 == x.id) = true := by
        simp only [List.any_cons, he, Bool.false_or] at hany
        exact hany
      simp only [List.map_cons, he, Bool.false_eq_true, if_false,
        List.find?_cons] <;>
        first
          | rfl
          | exact ih hany'
    · simp only [List.map_cons, he, if_true, List.find?_cons] <;>
        first
          | rfl
          | exact ih hany

/-- Value lookup through one `by_id` insertion: the inserted id now maps to
the inserted incident, all other keys are untouched. -/
theorem lookup_upsert (m : List (String × Incident)) (x : Incident) (k : String) :
    ((upsertById m x).find? (fun e => e.1 == k)).map Prod.snd =
      if x.id = k then some x
      else (m.find? (fun e => e.1 == k)).map Prod.snd := by
  unfold upsertById
  split
  · rename_i hany
    by_cases hk : x.id = k
    · subst hk
      rw [if_pos rfl]
      exact find_map_replace_self x m hany
    · rw [if_neg hk]
      exact find_map_replace_ne x k hk m
  · rename_i hany
    rw [List.find?_append]
    by_cases hk : x.id = k
    · have hm : m.find? (fun e => e.1 == k) = none := by
        rw [List.find?_eq_none]
        intro e he hek
        exact hany (List.any_eq_true.mpr ⟨e, he, by
          rw [eq_of_beq hek, hk]; exact beq_self_eq_true _⟩)
      rw [hm]
      have hx : (x.id == k) = true := beq_iff_eq.mpr hk
      simp only [Option.none_orElse, List.find?_cons, hx]
      rw [if_pos hk]
      rfl
    · have hx : ([(x.id, x)].find? (fun e => e.1 == k)) = none := by
        have : (x.id == k) = false := beq_eq_false_iff_ne.mpr hk
        simp only [List.find?_cons, this, List.find?_nil]
      rw [hx, if_neg hk]
      cases m.find? (fun e => e.1 == k) <;> rfl

/-- Lookup in the dict built from an incident list returns the last
occurrence with that id. -/
theorem buildById_lookup (xs : List Incident) (k : String) :
    ((xs.foldl upsertById []).find? (fun e => e.1 == k)).map Prod.snd =
      (xs.filter (fun i => i.id == k)).getLast? := by
  induction xs using List.reverseRecOn with
  | nil => rfl
  | append_singleton xs x ih =>
    rw [List.foldl_append, List.foldl_cons, List.foldl_nil, lookup_upsert,
      List.filter_append]
    rcases hx : (x.id == k) with _ | _
    · simp only [List.filter_cons, hx, Bool.false_eq_true, if_false,
        List.filter_nil, List.append_nil]
      rw [if_neg (by intro hc; rw [hc] at hx; simp at hx)]
      exact ih
    · simp only [List.filter_cons, hx, if_true, List.filter_nil]
      rw [List.getLast?_concat, if_pos (eq_of_beq hx)]

/-- C8 (implicit invariant): `apply_manual_overrides` returns at most one
incident per id for every input and payload (the output ids are pairwise
distinct), and input duplicates are collapsed with the last occurrence in
input order winning (stated via the empty payload, where the function is
exactly the `by_id` round-trip). -/
theorem overrides_dedup_by_id (xs : List Incident) (payload : Payload) :
    ((apply_manual_overrides xs payload).map Incident.id).Nodup ∧
    ∀ k, (apply_manual_overrides xs emptyPayload).find? (fun i => i.id == k) =
      (xs.filter (fun i => i.id == k)).getLast? := by
  constructor
  · have hwf := apply_manual_overrides_WF xs payload
    show ((_ : List (String × Incident)).map Prod.snd).map Incident.id |>.Nodup
    have hmap : ∀ m : List (String × Incident), (∀ e ∈ m, e.2.id = e.1) →
        (m.map Prod.snd).map Incident.id = m.map Prod.fst := by
      intro m hm
      rw [List.map_map]
      apply List.map_congr_left
      intro e he
      exact hm e he
    rw [hmap _ hwf.1]
    exact hwf.2
  · intro k
    have h0 : keyedWF (xs.foldl upsertById []) :=
      foldl_preserve keyedWF upsertById (fun m x hm => upsertById_WF m x hm) xs []
        ⟨fun e he => absurd he (List.not_mem_nil _), List.nodup_nil⟩
    show ((xs.foldl upsertById []).map Prod.snd).find? (fun i => i.id == k) = _
    rw [find_values _ _ h0.1, buildById_lookup]

/-! ## Merge-order (C1) lemmas -/

/-- Invariant of the seen-guarded accumulation: accumulated ids are
pairwise distinct and all registered in the `seen` set. -/
def seenInv (st : List String × List Incident) : Prop :=
  (st.2.map Incident.id).Nodup ∧ ∀ i ∈ st.2, i.id ∈ st.1

/-- The wdtv/wboy append step preserves the invariant. -/
theorem seenStep_seenInv (st : List String × List Incident) (inc : Incident)
    (h : seenInv st) : seenInv (seenStep st inc) := by
  unfold seenStep
  split
  · exact h
  · rename_i hnot
    constructor
    · dsimp only
      rw [List.map_append, List.nodup_append]
      refine ⟨h.1, List.nodup_singleton _, ?_⟩
      intro a ha hb
      rcases List.mem_singleton.mp hb with rfl
      rcases List.mem_map.mp ha with ⟨j, hj, hid⟩
      exact hnot (hid ▸ h.2 j hj)
    · intro i hi
      rcases List.mem_append.mp hi with hl | hr
      · exact List.mem_cons_of_mem _ (h.2 i hl)
      · rcases List.mem_singleton.mp hr with rfl
        exact List.mem_cons_self _ _

/-- The feed-loop step preserves the invariant. -/
theorem feedStep_seenInv (pd : String → String) (st : List String × List Incident)
    (item : FeedItem) (h : seenInv st) : seenInv (feedStep pd st item) := by
  simp only [feedStep]
  split
  · exact h
  · split
    · exact h
    · split
      · exact h
      · rename_i hnot
        constructor
        · dsimp only
          rw [List.map_append, List.nodup_append]
          refine ⟨h.1, List.nodup_singleton _, ?_⟩
          intro a ha hb
          rcases List.mem_singleton.mp hb with rfl
          rcases List.mem_map.mp ha with ⟨j, hj, hid⟩
          have hjseen : j.id ∈ st.1 := h.2 j hj
          rw [hid] at hjseen
          exact hnot hjseen
        · intro i hi
          rcases List.mem_append.mp hi with hl | hr
          · exact List.mem_cons_of_mem _ (h.2 i hl)
          · rcases List.mem_singleton.mp hr with rfl
            exact List.mem_cons_self _ _

/-- With no delay-listing candidates, the whole candidate assembly keeps
the invariant: every accepted id is unique and registered. -/
theorem mergedCandidates_inv (pd : String → String) (feeds : List (List FeedItem))
    (wdtv : List Incident) (wboy : List (Option Incident)) :
    seenInv (mergedCandidates pd feeds [] wdtv wboy) := by
  unfold mergedCandidates
  have h1 : seenInv (feeds.foldl (fun st items => items.foldl (feedStep pd) st) ([], [])) :=
    foldl_preserve seenInv _
      (fun st items hst =>
        foldl_preserve seenInv (feedStep pd)
          (fun s a hs => feedStep_seenInv pd s a hs) items st hst)
      feeds ([], []) ⟨List.nodup_nil, fun i hi => absurd hi (List.not_mem_nil _)⟩
  have h2 : seenInv
      ((feeds.foldl (fun st items => items.foldl (feedStep pd) st) ([], [])).1,
       (feeds.foldl (fun st items => items.foldl (feedStep pd) st) ([], [])).2
         ++ ([] : List Incident)) := by
    rw [List.append_nil]
    exact h1
  have h3 := foldl_preserve seenInv seenStep
    (fun s a hs => seenStep_seenInv s a hs) wdtv _ h2
  exact foldl_preserve seenInv _
    (fun s a hs => by
      cases a with
      | none => exact hs
      | some inc => exact seenStep_seenInv s inc hs) wboy _ h3

/-- Folding a duplicate-free incident list into the `by_id` dict appends
every entry in order. -/
theorem buildById_of_nodup : ∀ xs : List Incident, (xs.map Incident.id).Nodup →
    xs.foldl upsertById [] = xs.map (fun i => (i.id, i)) := by
  intro xs
  induction xs using List.reverseRecOn with
  | nil => intro _; rfl
  | append_singleton xs x ih =>
    intro h
    rw [List.map_append, List.nodup_append] at h
    obtain ⟨h1, _, h3⟩ := h
    rw [List.foldl_append, List.foldl_cons, List.foldl_nil, ih h1]
    have hnot : x.id ∉ xs.map Incident.id := by
      intro hc
      exact h3 hc (List.mem_singleton.mpr rfl)
    have hany : ((xs.map (fun i => (i.id, i))).any (fun e => e.1 == x.id)) = false := by
      apply List.any_eq_false.mpr
      intro e he hbe
      rcases List.mem_map.mp he with ⟨i, hi, rfl⟩
      exact hnot (List.mem_map.mpr ⟨i, hi, eq_of_beq hbe⟩)
    unfold upsertById
    rw [hany]
    simp only [Bool.false_eq_true, if_false]
    rw [List.map_append]
    rfl

/-- On a duplicate-free list, `apply_manual_overrides` with the empty
payload is the identity. -/
theorem apply_empty_of_nodup (xs : List Incident)
    (h : (xs.map Incident.id).Nodup) :
    apply_manual_overrides xs emptyPayload = xs := by
  show (xs.foldl upsertById []).map Prod.snd = xs
  rw [buildById_of_nodup xs h, List.map_map]
  have hcomp : (Prod.snd ∘ fun i : Incident => (i.id, i)) = id := rfl
  rw [hcomp, List.map_id]

/-- Membership through a stable insertion. -/
theorem mem_insertByPub (a x : Incident) :
    ∀ l : List Incident, a ∈ insertByPub x l ↔ a = x ∨ a ∈ l := by
  intro l
  induction l with
  | nil => simp [insertByPub]
  | cons y ys ih =>
    unfold insertByPub
    split
    · simp [List.mem_cons]
    · rw [List.mem_cons, ih, List.mem_cons]
      tauto

/-- The final sort only reorders: membership is preserved. -/
theorem mem_sortByPubDesc (a : Incident) (xs : List Incident) :
    a ∈ sortByPubDesc xs ↔ a ∈ xs := by
  have hgen : ∀ (ys : List Incident) (acc : List Incident),
      a ∈ ys.foldl (fun acc x => insertByPub x acc) acc ↔ a ∈ acc ∨ a ∈ ys := by
    intro ys
    induction ys with
    | nil => intro acc; simp
    | cons y ys ih =>
      intro acc
      rw [List.foldl_cons, ih, mem_insertByPub, List.mem_cons]
      tauto
  unfold sortByPubDesc
  rw [hgen xs []]
  simp

/-- C1 (amended): among the seen-checked sources (syndication feeds, then
archived sitemap, then archived search — with no delay-listing candidates),
first-writer-wins holds: the assembled candidates carry pairwise-distinct
ids (a later candidate with an already-seen id is never appended), and the
final dataset (empty overrides) contains exactly those candidates.  The
delay-listing extend bypasses the `seen` set, which is what the
counterexample below exploits. -/
theorem first_writer_wins_without_wv511 (pd : String → String)
    (feeds : List (List FeedItem)) (wdtv : List Incident)
    (wboy : List (Option Incident)) :
    (((mergedCandidates pd feeds [] wdtv wboy).2).map Incident.id).Nodup ∧
    ∀ inc, inc ∈ build_dataset_incidents pd feeds [] wdtv wboy emptyPayload ↔
      inc ∈ (mergedCandidates pd feeds [] wdtv wboy).2 := by
  have hinv := mergedCandidates_inv pd feeds wdtv wboy
  refine ⟨hinv.1, fun inc => ?_⟩
  unfold build_dataset_incidents
  rw [apply_empty_of_nodup _ hinv.1]
  exact mem_sortByPubDesc _ _

/-! ## C1 counterexample: a delay-listing candidate replaces a feed
candidate with the same id -/

/-- The blob the parser assembles for the crafted delay-listing block. -/
def cexBlob : String := "I-79 Crash I-79 crash"

/-- Crafted delay-listing lines: one in-scope block titled "Crash". -/
def cexWvLines : List String :=
  ["I-79 Crash", "County: Marion County", "Description: I-79 crash"]

/-- The corresponding pseudo-URL the parser synthesizes for that block; a
feed item carrying this link and the block's title gets the same id. -/
def cexLink : String :=
  WV511_DELAY_URL ++ "#i79-" ++ String.mk ((sha1HexUtf8 cexBlob).toList.take 10)

/-- A syndication feed item colliding with the delay-listing block's id. -/
def cexFeedItem : FeedItem :=
  { title := "I-79 Crash", link := cexLink, description := "crash on I-79",
    pub_date := "", source := "example.com" }

/-- Counterexample to C1 as stated: the feed item (earlier source) and the
delay-listing block (later source) share one id; both enter the candidate
list — the WV511 extend consults no `seen` set — and the final dataset
keeps the delay-listing record (`official_wv511`), not the feed record
(`news`): the later source replaced the earlier one. -/
theorem wv511_replaces_feed_candidate :
    ((mergedCandidates (fun _ => "") [[cexFeedItem]]
        (parse_wv511_i79_incidents cexWvLines) [] []).2.map
      (fun i => (i.id == incident_id cexLink "I-79 Crash", i.source_type))
      = [(true, "news"), (true, "official_wv511")]) ∧
    ((build_dataset_incidents (fun _ => "") [[cexFeedItem]]
        (parse_wv511_i79_incidents cexWvLines) [] [] emptyPayload).map
      (fun i => (i.id == incident_id cexLink "I-79 Crash", i.source_type))
      = [(true, "official_wv511")]) := by decide

/-! ## Archived-source adapters (`to_wboy_incident`, `to_wdtv_incident`)

The CMS-search and sitemap adapters of the source.  Their network stages
(`fetch`, `iter_wboy_historical_posts`, `iter_wdtv_sitemap_entries`) and
the stdlib collaborators (ISO-8601 parsing via `datetime.fromisoformat`,
the HTML-metadata reader of spec §6 extracting `og:title`,
`og:description`, `article:published_time` and the `<title>` fallback) are
inputs/parameters; the classification, location, fatality and identity
logic below those boundaries follows the source. -/

def NON_EVENT_TITLE_TERMS : List String :=
  ["discusses what might cause", "what might cause accidents", "safety tips",
   "how to avoid", "why crashes happen"]

/-- `is_north_central_context`: county, county-alias, or city mention. -/
def is_north_central_context (text : String) : Bool :=
  let lowered := lowerL text
  let county_hit := NORTH_CENTRAL_COUNTIES.any (fun c => hasSubS c lowered)
  let county_alias_hit :=
    ["mon county", "marion co", "harrison co"].any (fun a => hasSubS a lowered)
  let city_hit :=
    ["morgantown", "fairmont", "bridgeport", "clarksburg", "white hall",
     "weston"].any (fun c => hasSubS c lowered)
  county_hit || county_alias_hit || city_hit

/-- Tag stripping of `clean_text` (`re.sub(r"<[^>]+>", " ", value)`):
fuel-indexed scan (each step consumes at least one character, so
`fuel = cs.length` suffices); at `<`, the greedy nonempty `[^>]+` run must
be closed by `>` for a match, else the `<` is kept and the scan moves on. -/
def stripTagsAux : Nat → List Char → List Char
  | 0, _ => []
  | _ + 1, [] => []
  | fuel + 1, c :: rest =>
    if c = '<' then
      match rest.takeWhile (fun x => x ≠ '>'),
          rest.drop (rest.takeWhile (fun x => x ≠ '>')).length with
      | _ :: _, '>' :: after => ' ' :: stripTagsAux fuel after
      | _, _ => '<' :: stripTagsAux fuel rest
    else c :: stripTagsAux fuel rest

/-- Whitespace collapse of `clean_text` (`re.sub(r"\s+", " ", value)`):
the flag records whether the previous character was whitespace. -/
def collapseWsAux : Bool → List Char → List Char
  | _, [] => []
  | prevSp, c :: rest =>
    if isPySpace c then
      if prevSp then collapseWsAux true rest
      else ' ' :: collapseWsAux true rest
    else c :: collapseWsAux false rest

/-- `clean_text`: strip tags, collapse whitespace, strip. -/
def clean_text (s : String) : String :=
  pyStrip (String.mk (collapseWsAux false (stripTagsAux s.toList.length s.toList)))

/-- Sanity checks of `clean_text` against the repository's unit tests. -/
theorem clean_text_examples :
    clean_text "<p>Hello <b>world</b></p>" = "Hello world" ∧
    clean_text "  lots   of   spaces  " = "lots of spaces" ∧
    clean_text "plain text" = "plain text" ∧
    clean_text "" = "" := by decide

/-- `parse_wp_date`: empty input short-circuits to `""`; nonempty input
goes to the ISO-8601 wire-format collaborator `pw`
(`datetime.fromisoformat` after the `Z` rewrite). -/
def parse_wp_date (pw : String → String) (raw : String) : String :=
  if raw = "" then "" else pw raw

/-- `parse_iso_date`: same collaborator boundary as `parse_wp_date`. -/
def parse_iso_date (px : String → String) (raw : String) : String :=
  if raw = "" then "" else px raw

/-- A WordPress post row as the CMS-search reader yields it (`rendered`
fields as raw HTML strings; a missing or non-dict field is `""`, which is
what the source's `isinstance` guards collapse it to). -/
structure WPPost where
  title : String := ""
  link : String := ""
  excerpt : String := ""
  content : String := ""
  date_gmt : String := ""
deriving DecidableEq, Repr

/-- `to_wboy_incident`. -/
def to_wboy_incident (pw : String → String) (post : WPPost) : Option Incident :=
  let title := clean_text post.title
  let link := clean_text post.link
  let excerpt := clean_text post.excerpt
  let content := clean_text post.content
  let blob := pyStrip (title ++ " " ++ excerpt ++ " " ++ content)
  let title_excerpt_blob := pyStrip (title ++ " " ++ excerpt)
  let fatality_blob :=
    pyStrip (title ++ " " ++ excerpt ++ " " ++ String.mk (content.toList.take 350))
  let title_lower := lowerL title
  if title = "" ∨ link = "" then none
  else if NON_EVENT_TITLE_TERMS.any (fun t => hasSubS t title_lower) then none
  else if ¬ likely_relevant title_excerpt_blob then none
  else if ¬ is_north_central_context blob then none
  else
    let loc := infer_location blob
    some
      { id := incident_id link title
        title := title
        url := link
        source := "wboy.com"
        published_at := parse_wp_date pw post.date_gmt
        summary := if excerpt = "" then String.mk (content.toList.take 420) else excerpt
        location_text := loc.1
        lat := loc.2.1
        lon := loc.2.2
        construction_related := CONSTRUCTION_TERMS.any (fun t => hasSubS t (lowerL blob))
        suspected_fatalities := extract_fatalities fatality_blob
        source_type := "news_archive"
        verification_status := "unverified" }

/-- The per-article outputs of the HTML-metadata reader (spec §6) for one
sitemap entry: each extraction is already `clean_text`ed, `""` when
absent.  The fetch and meta-regex extraction sit at this collaborator
boundary. -/
structure WdtvRow where
  article_url : String := ""
  sitemap_lastmod : String := ""
  og_title : String := ""
  og_description : String := ""
  published_time : String := ""
  title_tag : String := ""
deriving DecidableEq, Repr

/-- `to_wdtv_incident` (below the fetch/metadata-extraction boundary). -/
def to_wdtv_incident (px : String → String) (r : WdtvRow) : Option Incident :=
  let published_raw :=
    if r.published_time = "" then r.sitemap_lastmod else r.published_time
  let title := if r.og_title = "" then r.title_tag else r.og_title
  if title = "" then none
  else
    let summary := r.og_description
    let blob := title ++ " " ++ summary ++ " " ++ r.article_url
    if ¬ likely_relevant blob then none
    else if ¬ is_north_central_context blob then none
    else
      let loc := infer_location blob
      some
        { id := incident_id r.article_url title
          title := title
          url := r.article_url
          source := "wdtv.com"
          published_at := parse_iso_date px published_raw
          summary := summary
          location_text := loc.1
          lat := loc.2.1
          lon := loc.2.2
          construction_related := CONSTRUCTION_TERMS.any (fun t => hasSubS t (lowerL blob))
          suspected_fatalities := extract_fatalities (title ++ " " ++ summary)
          source_type := "news_archive_wdtv"
          verification_status := "unverified" }

/-! ## Coordinate pairing of the full pipeline (C2) -/

set_option maxHeartbeats 1000000 in
/-- Archived-search incidents take both coordinates from the resolver. -/
theorem to_wboy_paired (pw : String → String) (post : WPPost) (inc : Incident)
    (h : to_wboy_incident pw post = some inc) :
    inc.lat.isSome = inc.lon.isSome := by
  simp only [to_wboy_incident] at h
  repeat' split at h
  all_goals
    (first
      | exact Option.noConfusion h
      | (injection h with h'
         subst h'
         exact infer_location_paired _))

set_option maxHeartbeats 1000000 in
/-- Archived-sitemap incidents take both coordinates from the resolver. -/
theorem to_wdtv_paired (px : String → String) (r : WdtvRow) (inc : Incident)
    (h : to_wdtv_incident px r = some inc) :
    inc.lat.isSome = inc.lon.isSome := by
  simp only [to_wdtv_incident] at h
  repeat' split at h
  all_goals
    (first
      | exact Option.noConfusion h
      | (injection h with h'
         subst h'
         exact infer_location_paired _))

/-- Patching never changes the coordinates. -/
theorem applyPatch_coords (inc : Incident) (p : Patch) :
    (applyPatch inc p).lat = inc.lat ∧ (applyPatch inc p).lon = inc.lon := by
  obtain ⟨a, b, c, d, e⟩ := p
  cases a <;> cases b <;> cases c <;> cases d <;> cases e <;> exact ⟨rfl, rfl⟩

/-- A manual payload supplies its coordinate keys consistently: both keys
absent, both present and null, or both present and non-null. -/
def manualCoordsPaired (raw : RawManual) : Bool :=
  match raw.lat, raw.lon with
  | none, none => true
  | some none, some none => true
  | some (some _), some (some _) => true
  | _, _ => false

/-- A manual record with consistently supplied coordinate keys yields a
paired incident. -/
theorem manual_paired_of (raw : RawManual) (inc : Incident)
    (hC : manualCoordsPaired raw = true)
    (h : manualIncidentOfRaw raw = some inc) :
    inc.lat.isSome = inc.lon.isSome := by
  rcases hlat : raw.lat with _ | mlat
  · rcases hlon : raw.lon with _ | mlon
    · exact manual_paired raw inc hlat hlon h
    · exfalso
      unfold manualCoordsPaired at hC
      rw [hlat, hlon] at hC
      cases mlon <;> simp at hC
  · rcases hlon : raw.lon with _ | mlon
    · exfalso
      unfold manualCoordsPaired at hC
      rw [hlat, hlon] at hC
      cases mlat <;> simp at hC
    · cases mlat with
      | none =>
        cases mlon with
        | none =>
          simp only [manualIncidentOfRaw, hlat, hlon] at h
          split at h
          · exact absurd h (by simp)
          · injection h with h'
            subst h'
            rfl
        | some b =>
          exfalso
          unfold manualCoordsPaired at hC
          rw [hlat, hlon] at hC
          simp at hC
      | some a =>
        cases mlon with
        | none =>
          exfalso
          unfold manualCoordsPaired at hC
          rw [hlat, hlon] at hC
          simp at hC
        | some b =>
          simp only [manualIncidentOfRaw, hlat, hlon] at h
          split at h
          · exact absurd h (by simp)
          · injection h with h'
            subst h'
            rfl

/-- Member-aware fold preservation: the step hypothesis is only needed for
elements of the folded list. -/
theorem foldl_preserve_mem {α : Type _} {σ : Type _} (P : σ → Prop)
    (step : σ → α → σ) :
    ∀ xs : List α, (∀ s a, a ∈ xs → P s → P (step s a)) →
      ∀ s, P s → P (xs.foldl step s) := by
  intro xs
  induction xs with
  | nil => intro _ s hs; exact hs
  | cons x xs ih =>
    intro h s hs
    exact ih (fun s a ha hsa => h s a (List.mem_cons_of_mem _ ha) hsa) _
      (h s x (List.mem_cons_self _ _) hs)

/-- The seen-guarded append preserves any per-incident property. -/
theorem seenStep_pres (Q : Incident → Prop) (st : List String × List Incident)
    (inc : Incident) (hinc : Q inc) (h : ∀ i ∈ st.2, Q i) :
    ∀ i ∈ (seenStep st inc).2, Q i := by
  intro i hi
  unfold seenStep at hi
  split at hi
  · exact h i hi
  · dsimp only at hi
    rcases List.mem_append.mp hi with hl | hr
    · exact h i hl
    · rcases List.mem_singleton.mp hr with rfl
      exact hinc

/-- The wdtv/wboy stages of the candidate assembly preserve pairing, given
paired inputs. -/
theorem post_stages_paired (wdtv : List Incident) (wboy : List (Option Incident))
    (hwdtv : ∀ i ∈ wdtv, i.lat.isSome = i.lon.isSome)
    (hwboy : ∀ o ∈ wboy, ∀ i : Incident, o = some i → i.lat.isSome = i.lon.isSome)
    (st : List String × List Incident)
    (hst : ∀ i ∈ st.2, i.lat.isSome = i.lon.isSome) :
    ∀ i ∈ (wboy.foldl
        (fun st o =>
          match o with
          | none => st
          | some inc => seenStep st inc)
        (wdtv.foldl seenStep st)).2,
      i.lat.isSome = i.lon.isSome := by
  have h3 := foldl_preserve_mem
    (fun st : List String × List Incident => ∀ i ∈ st.2, i.lat.isSome = i.lon.isSome)
    seenStep wdtv
    (fun s a ha hs =>
      seenStep_pres (fun i => i.lat.isSome = i.lon.isSome) s a (hwdtv a ha) hs)
    st hst
  exact foldl_preserve_mem
    (fun st : List String × List Incident => ∀ i ∈ st.2, i.lat.isSome = i.lon.isSome)
    (fun st o =>
      match o with
      | none => st
      | some inc => seenStep st inc) wboy
    (fun s o ho hs => by
      cases o with
      | none => exact hs
      | some inc =>
        exact seenStep_pres (fun i => i.lat.isSome = i.lon.isSome) s inc
          (hwboy _ ho inc rfl) hs) _ h3

/-- Every candidate assembled by `build_dataset` is paired, given paired
delay-listing, sitemap and search inputs. -/
theorem mergedCandidates_paired (pd : String → String)
    (feeds : List (List FeedItem)) (wv wdtv : List Incident)
    (wboy : List (Option Incident))
    (hwv : ∀ i ∈ wv, i.lat.isSome = i.lon.isSome)
    (hwdtv : ∀ i ∈ wdtv, i.lat.isSome = i.lon.isSome)
    (hwboy : ∀ o ∈ wboy, ∀ i : Incident, o = some i → i.lat.isSome = i.lon.isSome) :
    ∀ inc ∈ (mergedCandidates pd feeds wv wdtv wboy).2,
      inc.lat.isSome = inc.lon.isSome := by
  intro inc hmem
  simp only [mergedCandidates] at hmem
  refine post_stages_paired wdtv wboy hwdtv hwboy _ ?_ inc hmem
  intro i hi
  dsimp only at hi
  rcases List.mem_append.mp hi with hl | hr
  · exact foldl_preserve
      (fun st : List String × List Incident => ∀ i ∈ st.2, i.lat.isSome = i.lon.isSome)
      (fun st items => items.foldl (feedStep pd) st)
      (fun st items hst =>
        foldl_preserve _ (feedStep pd) (fun s a hs => feedStep_paired pd s a hs)
          items st hst)
      feeds ([], []) (fun j hj => absurd hj (List.not_mem_nil _)) i hl
  · exact hwv i hr

/-- `by_id` insertion preserves any property of the stored incidents. -/
theorem upsertById_pres (Q : Incident → Prop) (m : List (String × Incident))
    (x : Incident) (hm : ∀ e ∈ m, Q e.2) (hx : Q x) :
    ∀ e ∈ upsertById m x, Q e.2 := by
  intro e he
  unfold upsertById at he
  split at he
  · rcases List.mem_map.mp he with ⟨e', he', rfl⟩
    show Q (if e'.1 == x.id then (e'.1, x) else e').2
    split
    · exact hx
    · exact hm e' he'
  · rcases List.mem_append.mp he with hl | hr
    · exact hm e hl
    · rcases List.mem_singleton.mp hr with rfl
      exact hx

/-- Field patches keep the stored incidents paired (they cannot touch
`lat`/`lon`). -/
theorem patchAt_paired (m : List (String × Incident)) (k : String) (p : Patch)
    (hm : ∀ e ∈ m, e.2.lat.isSome = e.2.lon.isSome) :
    ∀ e ∈ patchAt m k p, e.2.lat.isSome = e.2.lon.isSome := by
  intro e he
  unfold patchAt at he
  rcases List.mem_map.mp he with ⟨e', he', rfl⟩
  show (if e'.1 == k then (e'.1, applyPatch e'.2 p) else e').2.lat.isSome
    = (if e'.1 == k then (e'.1, applyPatch e'.2 p) else e').2.lon.isSome
  split
  · show (applyPatch e'.2 p).lat.isSome = (applyPatch e'.2 p).lon.isSome
    rw [(applyPatch_coords e'.2 p).1, (applyPatch_coords e'.2 p).2]
    exact hm e' he'
  · exact hm e' he'

/-- The whole override engine preserves pairing when every manual payload
supplies its coordinate keys consistently. -/
theorem apply_manual_overrides_paired (xs : List Incident) (payload : Payload)
    (hxs : ∀ i ∈ xs, i.lat.isSome = i.lon.isSome)
    (hman : ∀ raw ∈ payload.manual_incidents, manualCoordsPaired raw = true) :
    ∀ i ∈ apply_manual_overrides xs payload, i.lat.isSome = i.lon.isSome := by
  have h0 := foldl_preserve_mem
    (fun m : List (String × Incident) => ∀ e ∈ m, e.2.lat.isSome = e.2.lon.isSome)
    upsertById xs
    (fun m x hxmem hq => upsertById_pres (fun i => i.lat.isSome = i.lon.isSome) m x hq (hxs x hxmem)) []
    (fun e he => absurd he (List.not_mem_nil _))
  have h1 := foldl_preserve
    (fun m : List (String × Incident) => ∀ e ∈ m, e.2.lat.isSome = e.2.lon.isSome)
    (fun m kp => patchAt m kp.1 kp.2)
    (fun m kp hq => patchAt_paired m kp.1 kp.2 hq)
    payload.incident_overrides _ h0
  have h2 := foldl_preserve_mem
    (fun m : List (String × Incident) => ∀ e ∈ m, e.2.lat.isSome = e.2.lon.isSome)
    (fun m raw =>
      match manualIncidentOfRaw raw with
      | some inc => upsertById m inc
      | none => m)
    payload.manual_incidents
    (fun m raw hrmem hq => by
      rcases hmr : manualIncidentOfRaw raw with _ | inc
      · simpa [hmr] using hq
      · simp only [hmr]
        exact upsertById_pres (fun i => i.lat.isSome = i.lon.isSome) m inc hq
          (manual_paired_of raw inc (hman raw hrmem) hmr)) _ h1
  intro i hi
  rcases List.mem_map.mp hi with ⟨e, he, rfl⟩
  exact h2 e he

/-- C2 (amended): every incident in the final dataset has `lat` and `lon`
both null or both set — across the feed pipeline, the official
delay-listing parser, the archived-sitemap and archived-search adapters,
field patches, and manual records — provided every manual-incident payload
supplies its coordinate keys consistently (both absent, both null, or both
non-null).  A payload supplying exactly one coordinate key breaks the
invariant: see the counterexample. -/
theorem lat_lon_both_or_neither (pd pw px : String → String)
    (feeds : List (List FeedItem)) (wvLines : List String)
    (wdtvRows : List WdtvRow) (wboyPosts : List WPPost) (payload : Payload)
    (hman : ∀ raw ∈ payload.manual_incidents, manualCoordsPaired raw = true) :
    ∀ inc ∈ build_dataset_incidents pd feeds
        (parse_wv511_i79_incidents wvLines)
        (wdtvRows.filterMap (to_wdtv_incident px))
        (wboyPosts.map (fun p => to_wboy_incident pw p))
        payload,
      inc.lat.isSome = inc.lon.isSome := by
  intro inc hmem
  unfold build_dataset_incidents at hmem
  rw [mem_sortByPubDesc] at hmem
  refine apply_manual_overrides_paired _ payload ?_ hman inc hmem
  intro i hi
  refine mergedCandidates_paired pd feeds _ _ _ ?_ ?_ ?_ i hi
  · exact fun j hj => wv511_paired wvLines j hj
  · intro j hj
    rcases List.mem_filterMap.mp hj with ⟨r, _, hr⟩
    exact to_wdtv_paired px r j hr
  · intro o ho j hoj
    rcases List.mem_map.mp ho with ⟨p, _, rfl⟩
    exact to_wboy_paired pw p j hoj

/-- Witness for `lat_lon_both_or_neither`: the payload hypothesis and the
dataset membership are discharged on a concrete run — the spec's example
delay-listing block plus one coordinate-free manual record. -/
theorem lat_lon_both_or_neither_witness :
    ((build_dataset_incidents (fun _ => "") []
        (parse_wv511_i79_incidents wvExampleLines)
        (([] : List WdtvRow).filterMap (to_wdtv_incident (fun _ => "")))
        (([] : List WPPost).map (fun p => to_wboy_incident (fun _ => "") p))
        { manual_incidents := [{ title := "zzz" }] }).headD blankIncident).lat.isSome =
    ((build_dataset_incidents (fun _ => "") []
        (parse_wv511_i79_incidents wvExampleLines)
        (([] : List WdtvRow).filterMap (to_wdtv_incident (fun _ => "")))
        (([] : List WPPost).map (fun p => to_wboy_incident (fun _ => "") p))
        { manual_incidents := [{ title := "zzz" }] }).headD blankIncident).lon.isSome :=
  lat_lon_both_or_neither (fun _ => "") (fun _ => "") (fun _ => "") [] wvExampleLines
    [] [] { manual_incidents := [{ title := "zzz" }] } (by decide) _ (by decide)
